import Mathlib

set_option maxHeartbeats 1000000

/-!
Verification development for the `aqts-capture-cloudwatch-dashboard` repository
(`cloudwatch_monitoring/lambdas.py`, `cloudwatch_monitoring/state_machine.py`,
`cloudwatch_monitoring/dashboard.py`, `cloudwatch_monitoring/tests/test_rds.py`).

Python strings are embedded as lists of characters (`Str`), Python dicts of
tags as association lists, and the JSON-like widget dictionaries as a small
inductive `JVal` type.  Remote API responses (paginated listings, per-resource
tag fetches) are passed in explicitly as data, and the module-global mutable
`positioning` dictionary is threaded through as explicit state.
-/

abbrev Str := List Char

/-- Characters of a Lean string literal; used to transcribe the Python string
constants of the source. -/
def lit (s : String) : Str := s.data

/-- Python substring containment, `pat in hay` for strings. -/
def containsSub (hay pat : Str) : Bool :=
  hay.tails.any (fun t => pat.isPrefixOf t)

/-- Scanner behind `pyReplace`: the `Nat` argument counts characters of a
just-matched occurrence that remain to be skipped (structural recursion on the
string, so the function evaluates by kernel reduction). -/
def pyReplaceGo (pat repl : Str) : Str → Nat → Str
  | [], _ => []
  | _ :: rest, Nat.succ n => pyReplaceGo pat repl rest n
  | c :: rest, 0 =>
    match pat with
    | [] => c :: rest
    | p :: ps =>
      if (p :: ps).isPrefixOf (c :: rest) then
        repl ++ pyReplaceGo pat repl rest ps.length
      else
        c :: pyReplaceGo pat repl rest 0

/-- Python `str.replace(pat, repl)` (all non-overlapping occurrences, scanned
left to right).  The source only ever calls it with a non-empty pattern, so the
empty-pattern case is modelled as the identity. -/
def pyReplace (s pat repl : Str) : Str := pyReplaceGo pat repl s 0

/-- Python `str.split(sep)` for a one-character separator: every occurrence of
the separator is a split point, and the empty string splits to `[""]`. -/
def pySplit (sep : Char) : Str → List Str
  | [] => [[]]
  | c :: rest =>
    match pySplit sep rest with
    | [] => [[]]
    | p :: ps => if c = sep then [] :: p :: ps else (c :: p) :: ps

/-- Python `sep.join(parts)` for a one-character separator. -/
def pyJoin (sep : Char) : List Str → Str
  | [] => []
  | [x] => x
  | x :: y :: ys => x ++ sep :: pyJoin sep (y :: ys)

/-- Python `str.upper()` (the source only uppercases ASCII deploy-tier names). -/
def pyUpper (s : Str) : Str := s.map Char.toUpper

/-- Python `str.lower()` (used on ASCII deploy-tier names). -/
def pyLower (s : Str) : Str := s.map Char.toLower

/-- Code-point lexicographic order on strings, the order Python's string
comparison (and hence `sorted`) uses. -/
def strLeB : Str → Str → Bool
  | [], _ => true
  | _ :: _, [] => false
  | a :: as, b :: bs => if a = b then strLeB as bs else decide (a.toNat < b.toNat)

/-- First-match association-list lookup, the embedding of a Python dict
read `d[k]` / `k in d` on a dict rendered as a key-value list. -/
def assocGet {α : Type} (l : List (Str × α)) (k : Str) : Option α :=
  (l.find? (fun p => decide (p.1 = k))).map (fun p => p.2)

-- basic facts about the string operations --------------------------------

theorem pySplit_ne_nil (sep : Char) (s : Str) : pySplit sep s ≠ [] := by
  cases s with
  | nil => simp [pySplit]
  | cons c rest =>
    simp only [pySplit]
    cases h : pySplit sep rest with
    | nil => simp
    | cons p ps => by_cases hc : c = sep <;> simp [hc]

theorem pySplit_append_sep (sep : Char) (x y : Str) :
    pySplit sep (x ++ sep :: y) = pySplit sep x ++ pySplit sep y := by
  induction x with
  | nil =>
    simp only [List.nil_append, pySplit]
    cases h : pySplit sep y with
    | nil => exact absurd h (pySplit_ne_nil sep y)
    | cons p ps => simp [pySplit]
  | cons c x ih =>
    cases h : pySplit sep x with
    | nil => exact absurd h (pySplit_ne_nil sep x)
    | cons p ps =>
      have key : pySplit sep ((c :: x) ++ sep :: y)
          = match pySplit sep (x ++ sep :: y) with
            | [] => [[]]
            | q :: qs => if c = sep then [] :: q :: qs else (c :: q) :: qs := rfl
      have key2 : pySplit sep (c :: x)
          = match pySplit sep x with
            | [] => [[]]
            | q :: qs => if c = sep then [] :: q :: qs else (c :: q) :: qs := rfl
      rw [key, ih, h, key2, h]
      by_cases hc : c = sep <;> simp [hc, List.cons_append]

theorem pySplit_no_sep (sep : Char) (y : Str) (h : sep ∉ y) :
    pySplit sep y = [y] := by
  induction y with
  | nil => simp [pySplit]
  | cons c rest ih =>
    simp only [List.mem_cons, not_or] at h
    simp only [pySplit, ih h.2]
    have : ¬ c = sep := fun hc => h.1 (hc ▸ rfl)
    simp [this]

theorem pyJoin_pySplit (sep : Char) (s : Str) :
    pyJoin sep (pySplit sep s) = s := by
  induction s with
  | nil => simp [pySplit, pyJoin]
  | cons c rest ih =>
    simp only [pySplit]
    cases h : pySplit sep rest with
    | nil => exact absurd h (pySplit_ne_nil sep rest)
    | cons p ps =>
      rw [h] at ih
      by_cases hc : c = sep
      · subst hc
        simp only [if_pos rfl, pyJoin]
        cases ps <;> simpa [pyJoin] using ih
      · simp only [if_neg hc]
        cases ps <;> simpa [pyJoin] using ih

theorem pyReplaceGo_skip (pat repl : Str) (s : Str) (n : Nat) :
    pyReplaceGo pat repl s n = pyReplaceGo pat repl (s.drop n) 0 := by
  induction s generalizing n with
  | nil => cases n <;> rfl
  | cons c rest ih =>
    cases n with
    | zero => rfl
    | succ n =>
      rw [show pyReplaceGo pat repl (c :: rest) (n + 1)
            = pyReplaceGo pat repl rest n from rfl, ih, List.drop_succ_cons]

theorem pyReplace_cons_neg (c : Char) (rest : Str) (p : Char) (ps repl : Str)
    (h : (p :: ps).isPrefixOf (c :: rest) = false) :
    pyReplace (c :: rest) (p :: ps) repl = c :: pyReplace rest (p :: ps) repl := by
  unfold pyReplace
  simp [pyReplaceGo, h]

theorem pyReplace_cons_pos (c : Char) (rest : Str) (p : Char) (ps repl : Str)
    (h : (p :: ps).isPrefixOf (c :: rest) = true) :
    pyReplace (c :: rest) (p :: ps) repl
      = repl ++ pyReplace (rest.drop ps.length) (p :: ps) repl := by
  unfold pyReplace
  simp [pyReplaceGo, h, pyReplaceGo_skip]

theorem pyReplace_no_occ (s pat repl : Str) (h : containsSub s pat = false) :
    pyReplace s pat repl = s := by
  induction s with
  | nil => cases pat <;> rfl
  | cons c rest ih =>
    cases pat with
    | nil => rfl
    | cons p ps =>
      simp only [containsSub, List.tails, List.any_cons, Bool.or_eq_false_iff] at h
      have h1 : (p :: ps).isPrefixOf (c :: rest) = false := h.1
      have h2 : containsSub rest (p :: ps) = false := by
        simp only [containsSub]
        exact h.2
      rw [pyReplace_cons_neg c rest p ps repl h1, ih h2]

theorem pyReplace_boundary (a b pat repl : Str) (hpat : pat ≠ [])
    (h : ∀ i < a.length, ¬ pat.isPrefixOf ((a ++ pat ++ b).drop i)) :
    pyReplace (a ++ pat ++ b) pat repl = a ++ repl ++ pyReplace b pat repl := by
  induction a with
  | nil =>
    cases pat with
    | nil => exact absurd rfl hpat
    | cons p ps =>
      have hpre : (p :: ps).isPrefixOf (p :: (ps ++ b)) = true := by
        simp [List.isPrefixOf_iff_prefix]
      rw [show ([] : Str) ++ (p :: ps) ++ b = p :: (ps ++ b) from by simp,
          pyReplace_cons_pos p (ps ++ b) p ps repl hpre, List.drop_left]
      simp
  | cons c a ih =>
    cases pat with
    | nil => exact absurd rfl hpat
    | cons p ps =>
      have h0 := h 0 (by simp)
      rw [List.drop_zero] at h0
      have hpre : (p :: ps).isPrefixOf (c :: (a ++ (p :: ps) ++ b)) = false := by
        apply Bool.eq_false_iff.mpr
        intro hcontra
        apply h0
        rw [show (c :: a) ++ (p :: ps) ++ b = c :: (a ++ (p :: ps) ++ b) from by simp]
        exact hcontra
      have ha : ∀ i < a.length, ¬ (p :: ps).isPrefixOf ((a ++ (p :: ps) ++ b).drop i) := by
        intro i hi
        have hh := h (i + 1) (by simp; omega)
        rw [show ((c :: a) ++ (p :: ps) ++ b) = c :: (a ++ (p :: ps) ++ b) from by simp,
            List.drop_succ_cons] at hh
        exact hh
      rw [show ((c :: a) ++ (p :: ps) ++ b) = c :: (a ++ (p :: ps) ++ b) from by simp,
          pyReplace_cons_neg c _ p ps repl hpre]
      simp only [List.cons_append]
      rw [ih ha]

theorem char_eq_of_toNat_eq {a b : Char} (h : a.toNat = b.toNat) : a = b := by
  apply Char.eq_of_val_eq
  exact UInt32.ext h

theorem strLeB_total (s t : Str) : strLeB s t = true ∨ strLeB t s = true := by
  induction s generalizing t with
  | nil => left; rfl
  | cons a as ih =>
    cases t with
    | nil => right; rfl
    | cons b bs =>
      by_cases hab : a = b
      · subst hab
        simpa [strLeB] using ih bs
      · have hba : ¬ b = a := fun hh => hab hh.symm
        have hne : a.toNat ≠ b.toNat := fun hv => hab (char_eq_of_toNat_eq hv)
        simp only [strLeB, if_neg hab, if_neg hba, decide_eq_true_eq]
        omega

theorem strLeB_trans (s t u : Str) (h1 : strLeB s t = true) (h2 : strLeB t u = true) :
    strLeB s u = true := by
  induction s generalizing t u with
  | nil => rfl
  | cons a as ih =>
    cases t with
    | nil => simp [strLeB] at h1
    | cons b bs =>
      cases u with
      | nil => simp [strLeB] at h2
      | cons c cs =>
        by_cases hab : a = b <;> by_cases hbc : b = c
        · subst hab; subst hbc
          simp only [strLeB, if_pos rfl] at h1 h2 ⊢
          exact ih bs cs h1 h2
        · subst hab
          simp only [strLeB, if_pos rfl, if_neg hbc] at h2 ⊢
          exact h2
        · subst hbc
          simp only [strLeB, if_neg hab] at h1 ⊢
          exact h1
        · simp only [strLeB, if_neg hab, if_neg hbc, decide_eq_true_eq] at h1 h2
          have hac : a.toNat ≠ c.toNat := by omega
          have : ¬ a = c := fun hh => hac (by rw [hh])
          simp only [strLeB, if_neg this, decide_eq_true_eq]
          omega

-- data model ---------------------------------------------------------------

/-- A lambda function record as returned by the listing API (only the field
the source reads). -/
structure LambdaFn where
  FunctionName : Str
deriving DecidableEq

/-- One tag record of a state machine's `list_tags_for_resource` response
(a dict with a `key` field that may be absent and a `value` field). -/
structure SfnTag where
  key : Option Str
  value : Str
deriving DecidableEq

/-- A state machine record as returned by `list_state_machines`. -/
structure StateMachine where
  stateMachineArn : Str
  name : Str
deriving DecidableEq

/-- One page of a `list_functions` response. -/
structure LambdaPage where
  Functions : List LambdaFn
  NextMarker : Option Str
deriving DecidableEq

/-- One page of a `list_state_machines` response. -/
structure SfnPage where
  stateMachines : List StateMachine
  nextToken : Option Str
deriving DecidableEq

/-- One entry of the `dashboard_lambdas` lookup table (the table itself lives
in `lookups.py` and is passed in as data). -/
structure LookupEntry where
  repo_name : Str
  descriptor : Str
  etl_branch : Str
  label : Str
deriving DecidableEq

-- tag filters (lambdas.py is_iow_lambda_filter, state_machine.py
-- is_iow_state_machine_filter); the per-resource tag-fetching API call is an
-- explicit environment argument -------------------------------------------

/-- `LambdaAPICalls.is_iow_lambda_filter`.  `get_function_tags` models the
`get_function` call: `none` when the response has no `Tags` key, otherwise
the `Tags` dict as a key-value list. -/
def is_iow_lambda_filter (deploy_stage : Str)
    (get_function_tags : Str → Option (List (Str × Str)))
    (function : LambdaFn) : Bool :=
  let function_name := function.FunctionName
  if containsSub function_name (pyUpper deploy_stage) then
    match get_function_tags function_name with
    | none => false
    | some tags =>
      match assocGet tags (lit "wma:organization") with
      | none => false
      | some v =>
        if v = lit "IOW" then
          if containsSub function_name (lit "CleanupFunction") then false
          else true
        else false
  else false

/-- `StepFunctionAPICalls.is_iow_state_machine_filter`.
`list_tags_for_resource` models the tag-listing call: `none` when the
response has no `tags` key, otherwise the list of tag records.  Note the
source checks `'wma:organization' in tag['key']` — a substring test — and has
no `CleanupFunction` exclusion. -/
def is_iow_state_machine_filter (deploy_stage : Str)
    (list_tags_for_resource : Str → Option (List SfnTag))
    (state_machine_arn : Str) : Bool :=
  if containsSub state_machine_arn (pyUpper deploy_stage) then
    match list_tags_for_resource state_machine_arn with
    | none => false
    | some tags =>
      tags.foldl (fun acc tag =>
        match tag.key with
        | none => acc
        | some k =>
          if containsSub k (lit "wma:organization") then
            if tag.value = lit "IOW" then true else acc
          else acc) false
  else false

-- pagination (lambdas.py get_all_lambda_metadata, state_machine.py
-- get_all_state_machines); the sequence of API responses is an explicit
-- argument, the n-th list call returning the n-th page ----------------------

/-- The manual pagination loop shared by both listers: keep extending the
result with each page's records while the previous response carried a
continuation token; `none` when the provided responses run out while a token
is still pending. -/
def collectLambdaPages : List LambdaPage → Option (List LambdaFn)
  | [] => none
  | page :: rest =>
    match page.NextMarker with
    | none => some page.Functions
    | some _ => (collectLambdaPages rest).map (fun more => page.Functions ++ more)

/-- Python's stable ascending `sorted(..., key=lambda i: i['FunctionName'])`,
realized as a stable insertion sort by code-point order on the name. -/
def sortByFunctionName (l : List LambdaFn) : List LambdaFn :=
  List.insertionSort (fun f g => strLeB f.FunctionName g.FunctionName = true) l

/-- `LambdaAPICalls.get_all_lambda_metadata`: paginate, then sort the collected
`Functions` list alphabetically by function name. -/
def get_all_lambda_metadata (pages : List LambdaPage) : Option (List LambdaFn) :=
  (collectLambdaPages pages).map sortByFunctionName

/-- The pagination loop of `StepFunctionAPICalls.get_all_state_machines`. -/
def collectSfnPages : List SfnPage → Option (List StateMachine)
  | [] => none
  | page :: rest =>
    match page.nextToken with
    | none => some page.stateMachines
    | some _ => (collectSfnPages rest).map (fun more => page.stateMachines ++ more)

/-- `StepFunctionAPICalls.get_all_state_machines`: paginate; no sorting. -/
def get_all_state_machines (pages : List SfnPage) : Option (List StateMachine) :=
  collectSfnPages pages

/-- The order `sorted(key=lambda i: i['FunctionName'])` sorts by. -/
def fnNameLe (f g : LambdaFn) : Prop := strLeB f.FunctionName g.FunctionName = true

instance : DecidableRel fnNameLe := fun f g => by
  unfold fnNameLe; infer_instance

instance : IsTotal LambdaFn fnNameLe :=
  ⟨fun f g => strLeB_total f.FunctionName g.FunctionName⟩

instance : IsTrans LambdaFn fnNameLe :=
  ⟨fun f g h => strLeB_trans f.FunctionName g.FunctionName h.FunctionName⟩

-- pagination lemmas ---------------------------------------------------------

theorem collectLambdaPages_spec (front : List LambdaPage) (lastPage : LambdaPage)
    (junk : List LambdaPage)
    (h1 : ∀ p ∈ front, p.NextMarker.isSome = true)
    (h2 : lastPage.NextMarker = none) :
    collectLambdaPages (front ++ lastPage :: junk)
      = some ((front.map (fun p => p.Functions)).flatten ++ lastPage.Functions) := by
  induction front with
  | nil => simp [collectLambdaPages, h2]
  | cons p front ih =>
    have hp : p.NextMarker.isSome = true := h1 p (by simp)
    obtain ⟨m, hm⟩ := Option.isSome_iff_exists.mp hp
    have hrest : ∀ q ∈ front, q.NextMarker.isSome = true := fun q hq => h1 q (by simp [hq])
    simp [collectLambdaPages, hm, ih hrest, List.flatten]

theorem collectSfnPages_spec (front : List SfnPage) (lastPage : SfnPage)
    (junk : List SfnPage)
    (h1 : ∀ p ∈ front, p.nextToken.isSome = true)
    (h2 : lastPage.nextToken = none) :
    collectSfnPages (front ++ lastPage :: junk)
      = some ((front.map (fun p => p.stateMachines)).flatten ++ lastPage.stateMachines) := by
  induction front with
  | nil => simp [collectSfnPages, h2]
  | cons p front ih =>
    have hp : p.nextToken.isSome = true := h1 p (by simp)
    obtain ⟨m, hm⟩ := Option.isSome_iff_exists.mp hp
    have hrest : ∀ q ∈ front, q.nextToken.isSome = true := fun q hq => h1 q (by simp [hq])
    simp [collectSfnPages, hm, ih hrest, List.flatten]

-- the tag predicate the state-machine filter's fold accumulates -------------

/-- What one tag record of a state machine contributes to the filter: a `key`
field containing `wma:organization` as a substring paired with the exact
value `IOW`. -/
def sfnTagMatches (tag : SfnTag) : Bool :=
  match tag.key with
  | none => false
  | some k => containsSub k (lit "wma:organization") && decide (tag.value = lit "IOW")

theorem sfnFold_eq_any (tags : List SfnTag) (acc : Bool) :
    tags.foldl (fun acc tag =>
      match tag.key with
      | none => acc
      | some k =>
        if containsSub k (lit "wma:organization") then
          if tag.value = lit "IOW" then true else acc
        else acc) acc
    = (acc || tags.any sfnTagMatches) := by
  induction tags generalizing acc with
  | nil => simp
  | cons t ts ih =>
    have hstep : (match t.key with
        | none => acc
        | some k =>
          if containsSub k (lit "wma:organization") then
            if t.value = lit "IOW" then true else acc
          else acc) = (acc || sfnTagMatches t) := by
      cases hk : t.key with
      | none => simp [sfnTagMatches, hk]
      | some k =>
        by_cases hc : containsSub k (lit "wma:organization") = true
        · by_cases hv : t.value = lit "IOW" <;>
            simp [sfnTagMatches, hk, hc, hv]
        · simp only [Bool.not_eq_true] at hc
          simp [sfnTagMatches, hk, hc]
    rw [List.foldl_cons, ih, hstep, List.any_cons]
    cases acc <;> cases sfnTagMatches t <;> simp

-- C1 -------------------------------------------------------------------------

/-- C1 (original claim, refuted): the claim's characterization demands that an
excluded cleanup resource (name containing `CleanupFunction`) never passes the
filter, but `is_iow_state_machine_filter` performs no such exclusion: a state
machine whose arn contains both the deploy tier and `CleanupFunction` and which
carries the `wma:organization = IOW` tag is accepted. -/
theorem c1_original_claim_false :
    is_iow_state_machine_filter (lit "DEV")
      (fun _ => some [⟨some (lit "wma:organization"), lit "IOW"⟩])
      (lit "arn:aws:states:us-west-2:stateMachine:aqts-capture-DEV-CleanupFunction")
      = true
    ∧ containsSub
        (lit "arn:aws:states:us-west-2:stateMachine:aqts-capture-DEV-CleanupFunction")
        (lit "CleanupFunction") = true := by
  constructor
  · decide
  · decide

/-- C1 (amended): exact characterization of both tag filters.  The lambda
filter returns true iff the name contains the upper-cased deploy tier, the
`Tags` dict maps the exact key `wma:organization` to the exact value `IOW`,
and the name does not contain `CleanupFunction`.  The state-machine filter
returns true iff the arn contains the upper-cased deploy tier and some tag
record has a `key` field containing `wma:organization` as a substring with
value exactly `IOW` — with no cleanup-name exclusion.  In particular, a
resource whose name lacks the deploy-tier substring is rejected by either
filter regardless of its tags. -/
theorem c1_amended_filter_characterization :
    (∀ (deploy_stage : Str) (env : Str → Option (List (Str × Str))) (f : LambdaFn),
      is_iow_lambda_filter deploy_stage env f
        = (containsSub f.FunctionName (pyUpper deploy_stage)
            && (match env f.FunctionName with
                | none => false
                | some tags =>
                    decide (assocGet tags (lit "wma:organization") = some (lit "IOW")))
            && !containsSub f.FunctionName (lit "CleanupFunction")))
    ∧ (∀ (deploy_stage : Str) (env : Str → Option (List SfnTag)) (arn : Str),
      is_iow_state_machine_filter deploy_stage env arn
        = (containsSub arn (pyUpper deploy_stage)
            && (match env arn with
                | none => false
                | some tags => tags.any sfnTagMatches)))
    ∧ (∀ (deploy_stage : Str) (env : Str → Option (List (Str × Str))) (f : LambdaFn),
        containsSub f.FunctionName (pyUpper deploy_stage) = false →
        is_iow_lambda_filter deploy_stage env f = false)
    ∧ (∀ (deploy_stage : Str) (env : Str → Option (List SfnTag)) (arn : Str),
        containsSub arn (pyUpper deploy_stage) = false →
        is_iow_state_machine_filter deploy_stage env arn = false) := by
  have hlam : ∀ (deploy_stage : Str) (env : Str → Option (List (Str × Str))) (f : LambdaFn),
      is_iow_lambda_filter deploy_stage env f
        = (containsSub f.FunctionName (pyUpper deploy_stage)
            && (match env f.FunctionName with
                | none => false
                | some tags =>
                    decide (assocGet tags (lit "wma:organization") = some (lit "IOW")))
            && !containsSub f.FunctionName (lit "CleanupFunction")) := by
    intro stage env f
    cases h1 : containsSub f.FunctionName (pyUpper stage) with
    | false => simp [is_iow_lambda_filter, h1]
    | true =>
      cases h2 : env f.FunctionName with
      | none => simp [is_iow_lambda_filter, h1, h2]
      | some tags =>
        cases h3 : assocGet tags (lit "wma:organization") with
        | none => simp [is_iow_lambda_filter, h1, h2, h3]
        | some v =>
          by_cases h4 : v = lit "IOW"
          · cases h5 : containsSub f.FunctionName (lit "CleanupFunction") <;>
              simp [is_iow_lambda_filter, h1, h2, h3, h4, h5]
          · simp [is_iow_lambda_filter, h1, h2, h3, h4]
  have hsm : ∀ (deploy_stage : Str) (env : Str → Option (List SfnTag)) (arn : Str),
      is_iow_state_machine_filter deploy_stage env arn
        = (containsSub arn (pyUpper deploy_stage)
            && (match env arn with
                | none => false
                | some tags => tags.any sfnTagMatches)) := by
    intro stage env arn
    cases h1 : containsSub arn (pyUpper stage) with
    | false => simp [is_iow_state_machine_filter, h1]
    | true =>
      cases h2 : env arn with
      | none => simp [is_iow_state_machine_filter, h1, h2]
      | some tags =>
        simp only [is_iow_state_machine_filter, h1, if_true, h2, Bool.true_and]
        rw [sfnFold_eq_any]
        simp
  refine ⟨hlam, hsm, ?_, ?_⟩
  · intro stage env f h
    rw [hlam stage env f, h]
    simp
  · intro stage env arn h
    rw [hsm stage env arn, h]
    simp

/-- C1 witness: the amended characterization applied at concrete inputs,
including the deploy-tier rejection clauses at a name lacking the tier. -/
theorem c1_amended_filter_characterization_witness :
    is_iow_lambda_filter (lit "DEV") (fun _ => none) ⟨lit "some-function"⟩ = false
    ∧ is_iow_state_machine_filter (lit "DEV") (fun _ => none) (lit "some-arn") = false :=
  ⟨c1_amended_filter_characterization.2.2.1 (lit "DEV") (fun _ => none)
      ⟨lit "some-function"⟩ (by decide),
   c1_amended_filter_characterization.2.2.2 (lit "DEV") (fun _ => none)
      (lit "some-arn") (by decide)⟩

-- C5 -------------------------------------------------------------------------

/-- C5 (original claim, refuted): `get_all_lambda_metadata` does not return the
concatenation of the pages in page order — it returns that concatenation sorted
by function name.  On a single page listing `b-func` before `a-func` the result
differs from the page-order concatenation. -/
theorem c5_original_claim_false :
    get_all_lambda_metadata [⟨[⟨lit "b-func"⟩, ⟨lit "a-func"⟩], none⟩]
      ≠ some (([⟨[⟨lit "b-func"⟩, ⟨lit "a-func"⟩], none⟩] : List LambdaPage).map
          (fun p => p.Functions)).flatten := by
  decide

/-- C5 (amended): both listers request the next page exactly while the previous
response carried a continuation token and terminate normally at the first
response lacking one (responses after it are never requested); the
state-machine lister returns the concatenation of the pages' record lists in
page order, and the lambda lister returns that concatenation sorted by
function name. -/
theorem c5_amended_pagination (front : List LambdaPage) (lastPage : LambdaPage)
    (junk : List LambdaPage) (sfront : List SfnPage) (slast : SfnPage)
    (sjunk : List SfnPage)
    (h1 : ∀ p ∈ front, p.NextMarker.isSome = true)
    (h2 : lastPage.NextMarker = none)
    (h3 : ∀ p ∈ sfront, p.nextToken.isSome = true)
    (h4 : slast.nextToken = none) :
    get_all_lambda_metadata (front ++ lastPage :: junk)
      = some (sortByFunctionName
          ((front.map (fun p => p.Functions)).flatten ++ lastPage.Functions))
    ∧ get_all_state_machines (sfront ++ slast :: sjunk)
      = some ((sfront.map (fun p => p.stateMachines)).flatten ++ slast.stateMachines) := by
  constructor
  · simp [get_all_lambda_metadata, collectLambdaPages_spec front lastPage junk h1 h2]
  · simp [get_all_state_machines, collectSfnPages_spec sfront slast sjunk h3 h4]

/-- C5 witness: the amended pagination behaviour at a concrete two-page run
with a trailing never-requested page. -/
theorem c5_amended_pagination_witness :
    get_all_lambda_metadata
        [⟨[⟨lit "b-func"⟩], some (lit "marker1")⟩,
         ⟨[⟨lit "a-func"⟩], none⟩,
         ⟨[⟨lit "z-func"⟩], none⟩]
      = some (sortByFunctionName
          (([(⟨[⟨lit "b-func"⟩], some (lit "marker1")⟩ : LambdaPage)].map
              (fun p => p.Functions)).flatten ++ [⟨lit "a-func"⟩]))
    ∧ get_all_state_machines
        [⟨[⟨lit "arn-b", lit "b-sm"⟩], some (lit "token1")⟩,
         ⟨[⟨lit "arn-a", lit "a-sm"⟩], none⟩]
      = some (([(⟨[⟨lit "arn-b", lit "b-sm"⟩], some (lit "token1")⟩ : SfnPage)].map
          (fun p => p.stateMachines)).flatten ++ [⟨lit "arn-a", lit "a-sm"⟩]) :=
  c5_amended_pagination
    [⟨[⟨lit "b-func"⟩], some (lit "marker1")⟩] ⟨[⟨lit "a-func"⟩], none⟩
    [⟨[⟨lit "z-func"⟩], none⟩]
    [⟨[⟨lit "arn-b", lit "b-sm"⟩], some (lit "token1")⟩]
    ⟨[⟨lit "arn-a", lit "a-sm"⟩], none⟩ []
    (by decide) rfl (by decide) rfl

-- C6 -------------------------------------------------------------------------

/-- C6 (original claim, refuted): the state-machine lister performs no sorting;
a single page whose records are out of name order is returned as-is. -/
theorem c6_original_claim_false :
    get_all_state_machines [⟨[⟨lit "arn-b", lit "b-sm"⟩, ⟨lit "arn-a", lit "a-sm"⟩], none⟩]
      = some [⟨lit "arn-b", lit "b-sm"⟩, ⟨lit "arn-a", lit "a-sm"⟩]
    ∧ strLeB (lit "b-sm") (lit "a-sm") = false := by
  constructor
  · decide
  · decide

/-- C6 (amended): the lambda lister's final list is sorted in ascending
code-point order on the function name; the state-machine lister applies no
sort and returns the pages' records concatenated in page order. -/
theorem c6_amended_sorting (pages : List LambdaPage) (out : List LambdaFn)
    (h : get_all_lambda_metadata pages = some out)
    (sfront : List SfnPage) (slast : SfnPage) (sjunk : List SfnPage)
    (h3 : ∀ p ∈ sfront, p.nextToken.isSome = true)
    (h4 : slast.nextToken = none) :
    List.Pairwise fnNameLe out
    ∧ get_all_state_machines (sfront ++ slast :: sjunk)
      = some ((sfront.map (fun p => p.stateMachines)).flatten ++ slast.stateMachines) := by
  constructor
  · obtain ⟨l, hl⟩ : ∃ l, collectLambdaPages pages = some l := by
      cases hc : collectLambdaPages pages with
      | none => rw [get_all_lambda_metadata, hc] at h; simp at h
      | some l => exact ⟨l, rfl⟩
    have hout : out = sortByFunctionName l := by
      rw [get_all_lambda_metadata, hl] at h
      simpa using h.symm
    rw [hout]
    exact List.sorted_insertionSort fnNameLe l
  · simp [get_all_state_machines, collectSfnPages_spec sfront slast sjunk h3 h4]

/-- C6 witness: the amended sorting behaviour at a concrete run. -/
theorem c6_amended_sorting_witness :
    List.Pairwise fnNameLe [(⟨lit "a-func"⟩ : LambdaFn), ⟨lit "b-func"⟩]
    ∧ get_all_state_machines [⟨[⟨lit "arn-a", lit "a-sm"⟩], none⟩]
      = some (([] : List (List StateMachine)).flatten ++ [⟨lit "arn-a", lit "a-sm"⟩]) :=
  c6_amended_sorting [⟨[⟨lit "b-func"⟩, ⟨lit "a-func"⟩], none⟩]
    [⟨lit "a-func"⟩, ⟨lit "b-func"⟩] (by decide)
    [] ⟨[⟨lit "arn-a", lit "a-sm"⟩], none⟩ [] (by decide) rfl

-- get_widget_properties (lambdas.py) ----------------------------------------

/-- The name-parsing step of `get_widget_properties`: derive
`(repo_name, descriptor)` from the function name.  A name containing
`es-logs-plugin` is special-cased by a fixed string replacement; otherwise the
deploy-tier substring is stripped, the name split on `-`, the last segment
taken as descriptor and the rest rejoined as the repo name. -/
def parseFunctionName (function_name deploy_stage : Str) : Str × Str :=
  if containsSub function_name (lit "es-logs-plugin") then
    (pyReplace function_name ('-' :: deploy_stage ++ '-' :: lit "es-logs-plugin") [],
     lit "es-logs-plugin")
  else
    (pyJoin '-' (pySplit '-' (pyReplace function_name ('-' :: deploy_stage) [])).dropLast,
     (pySplit '-' (pyReplace function_name ('-' :: deploy_stage) [])).getLastD [])

/-- One iteration of the lookup loop of `get_widget_properties`: the first
conditional overwrites the `(title, etl_branch)` accumulator on an exact
`(repo_name, descriptor)` match, the second (the `es-logs-plugin` case, keyed
on repo name alone) overwrites it again. -/
def lookupStep (repo_name descriptor : Str) (acc : Str × Str) (e : LookupEntry) :
    Str × Str :=
  let acc1 := if repo_name = e.repo_name ∧ descriptor = e.descriptor
              then (e.label, e.etl_branch) else acc
  if repo_name = e.repo_name ∧ descriptor = lit "es-logs-plugin"
  then (e.label ++ lit " ES logger", e.etl_branch) else acc1

/-- `get_widget_properties`: parse the name, then scan the `dashboard_lambdas`
table (a key-entry list in dict iteration order, the table itself living in
`lookups.py` and passed in as data); later matches override earlier ones;
defaults to the raw function name and the `not defined` branch.  The result is
the `(title, etl_branch)` pair. -/
def get_widget_properties (dashboard_lambdas : List (Str × LookupEntry))
    (function_name deploy_stage : Str) : Str × Str :=
  let parsed := parseFunctionName function_name deploy_stage
  dashboard_lambdas.foldl (fun acc kv => lookupStep parsed.1 parsed.2 acc kv.2)
    (function_name, lit "not defined")

/-- The value an entry forces onto the accumulator of the lookup loop, if any
(the `es-logs-plugin` conditional winning over the exact match when both
fire). -/
def lookupStepVal (repo_name descriptor : Str) (e : LookupEntry) :
    Option (Str × Str) :=
  if repo_name = e.repo_name ∧ descriptor = lit "es-logs-plugin" then
    some (e.label ++ lit " ES logger", e.etl_branch)
  else if repo_name = e.repo_name ∧ descriptor = e.descriptor then
    some (e.label, e.etl_branch)
  else none

theorem lookupStep_eq (repo_name descriptor : Str) (acc : Str × Str)
    (e : LookupEntry) :
    lookupStep repo_name descriptor acc e
      = (lookupStepVal repo_name descriptor e).getD acc := by
  unfold lookupStep lookupStepVal
  dsimp only
  by_cases h2 : repo_name = e.repo_name ∧ descriptor = lit "es-logs-plugin"
  · rw [if_pos h2, if_pos h2, Option.getD_some]
  · rw [if_neg h2, if_neg h2]
    by_cases h1 : repo_name = e.repo_name ∧ descriptor = e.descriptor
    · rw [if_pos h1, if_pos h1, Option.getD_some]
    · rw [if_neg h1, if_neg h1, Option.getD_none]

theorem lookupFold_none (repo_name descriptor : Str)
    (l : List (Str × LookupEntry)) (acc : Str × Str)
    (h : ∀ kv ∈ l, lookupStepVal repo_name descriptor kv.2 = none) :
    l.foldl (fun acc kv => lookupStep repo_name descriptor acc kv.2) acc = acc := by
  induction l generalizing acc with
  | nil => rfl
  | cons kv l ih =>
    rw [List.foldl_cons, lookupStep_eq, h kv (by simp)]
    exact ih acc (fun kv hkv => h kv (by simp [hkv]))

theorem lookupFold_last (repo_name descriptor : Str) (v : Str × Str)
    (l : List (Str × LookupEntry)) (acc : Str × Str)
    (hex : ∃ kv ∈ l, (lookupStepVal repo_name descriptor kv.2).isSome = true)
    (hag : ∀ kv ∈ l, ∀ w, lookupStepVal repo_name descriptor kv.2 = some w → w = v) :
    l.foldl (fun acc kv => lookupStep repo_name descriptor acc kv.2) acc = v := by
  induction l generalizing acc with
  | nil => obtain ⟨kv, hkv, _⟩ := hex; simp at hkv
  | cons kv l ih =>
    rw [List.foldl_cons, lookupStep_eq]
    by_cases hrest : ∃ kv ∈ l, (lookupStepVal repo_name descriptor kv.2).isSome = true
    · exact ih _ hrest (fun kv hkv => hag kv (by simp [hkv]))
    · cases hv : lookupStepVal repo_name descriptor kv.2 with
      | none =>
        obtain ⟨kv', hkv', hsome⟩ := hex
        rcases List.mem_cons.mp hkv' with heq | hmem
        · subst heq; rw [hv] at hsome; simp at hsome
        · exact absurd ⟨kv', hmem, hsome⟩ hrest
      | some w =>
        have hw : w = v := hag kv (by simp) w hv
        rw [Option.getD_some, hw]
        apply lookupFold_none
        intro kv' hkv'
        cases hvv : lookupStepVal repo_name descriptor kv'.2 with
        | none => rfl
        | some _ =>
          exact absurd ⟨kv', hkv', by simp [hvv]⟩ hrest

theorem descriptor_ne_es_of_no_dash (descriptor : Str) (hnodash : '-' ∉ descriptor) :
    descriptor ≠ lit "es-logs-plugin" := by
  intro h
  exact hnodash (h ▸ (by decide : '-' ∈ lit "es-logs-plugin"))

-- C3 -------------------------------------------------------------------------

/-- C3: for a function named `repo-DEV-descriptor` (deploy tier `DEV`; the
hypotheses pin down that the tier substring occurs only where expected, that
the descriptor is a single `-`-free segment, and that the name is not an
`es-logs-plugin` name), if the `dashboard_lambdas` table has an entry with
that repo name and descriptor (all such entries agreeing on label and branch),
then `get_widget_properties` returns the entry's label as the title and its
`etl_branch` as the category. -/
theorem c3_lookup_title_resolution
    (repo descriptor : Str) (tbl : List (Str × LookupEntry)) (e : LookupEntry)
    (hsub : ∀ i < repo.length,
      ¬ (lit "-DEV").isPrefixOf ((repo ++ lit "-DEV" ++ '-' :: descriptor).drop i))
    (hafter : containsSub ('-' :: descriptor) (lit "-DEV") = false)
    (hnodash : '-' ∉ descriptor)
    (hes : containsSub (repo ++ lit "-DEV" ++ '-' :: descriptor) (lit "es-logs-plugin")
      = false)
    (hrepo : e.repo_name = repo) (hdesc : e.descriptor = descriptor)
    (hmem : ∃ k, (k, e) ∈ tbl)
    (hag : ∀ kv ∈ tbl, kv.2.repo_name = repo → kv.2.descriptor = descriptor →
      kv.2.label = e.label ∧ kv.2.etl_branch = e.etl_branch) :
    get_widget_properties tbl (repo ++ lit "-DEV" ++ '-' :: descriptor) (lit "DEV")
      = (e.label, e.etl_branch) := by
  have hdash : ('-' :: lit "DEV") = lit "-DEV" := by decide
  have hcond : ¬ (containsSub (repo ++ lit "-DEV" ++ '-' :: descriptor)
      (lit "es-logs-plugin") = true) := by
    rw [hes]; exact Bool.false_ne_true
  have hwt : pyReplace (repo ++ lit "-DEV" ++ '-' :: descriptor) ('-' :: lit "DEV") []
      = repo ++ '-' :: descriptor := by
    rw [hdash, pyReplace_boundary repo ('-' :: descriptor) (lit "-DEV") [] (by decide) hsub,
        pyReplace_no_occ _ _ _ hafter]
    simp
  have hparse : parseFunctionName (repo ++ lit "-DEV" ++ '-' :: descriptor) (lit "DEV")
      = (repo, descriptor) := by
    unfold parseFunctionName
    rw [if_neg hcond, hwt, pySplit_append_sep, pySplit_no_sep '-' descriptor hnodash,
        List.dropLast_concat, List.getLastD_concat, pyJoin_pySplit]
  have hdne : descriptor ≠ lit "es-logs-plugin" := descriptor_ne_es_of_no_dash descriptor hnodash
  unfold get_widget_properties
  rw [hparse]
  dsimp only
  apply lookupFold_last
  · obtain ⟨k, hk⟩ := hmem
    refine ⟨(k, e), hk, ?_⟩
    unfold lookupStepVal
    rw [if_neg (fun hc => hdne hc.2), if_pos ⟨hrepo.symm, hdesc.symm⟩]
    rfl
  · intro kv hkv w hw
    unfold lookupStepVal at hw
    rw [if_neg (fun hc => hdne hc.2)] at hw
    by_cases h1 : repo = kv.2.repo_name ∧ descriptor = kv.2.descriptor
    · rw [if_pos h1] at hw
      obtain ⟨hl, hb⟩ := hag kv hkv h1.1.symm h1.2.symm
      cases hw
      rw [hl, hb]
    · rw [if_neg h1] at hw
      cases hw

/-- C3 witness: the lookup resolution at a concrete table and name. -/
theorem c3_lookup_title_resolution_witness :
    get_widget_properties
      [(lit "repo_x", ⟨lit "repox", lit "load", lit "data_ingest", lit "Repo X Load"⟩)]
      (lit "repox-DEV-load") (lit "DEV")
      = (lit "Repo X Load", lit "data_ingest") :=
  c3_lookup_title_resolution (lit "repox") (lit "load")
    [(lit "repo_x", ⟨lit "repox", lit "load", lit "data_ingest", lit "Repo X Load"⟩)]
    ⟨lit "repox", lit "load", lit "data_ingest", lit "Repo X Load"⟩
    (by decide) (by decide) (by decide) (by decide) rfl rfl
    ⟨lit "repo_x", by simp⟩ (by decide)

-- C4 -------------------------------------------------------------------------

/-- The widget-title resolution of `create_state_machine_widgets`
(`state_machine.py` lines 51–57): strip the tier suffix from the name, look
the result up in the `state_machines` table of `lookups.py` (passed in as a
key-title list; each entry's dict holds the display title), and fall back to
the raw state machine name when the key is missing. -/
def resolve_sm_title (state_machines : List (Str × Str))
    (deploy_stage state_machine_name : Str) : Str :=
  let tier_agnostic_state_machine_name :=
    pyReplace state_machine_name ('-' :: deploy_stage) []
  match assocGet state_machines tier_agnostic_state_machine_name with
  | some title => title
  | none => state_machine_name

/-- C4 (original claim, refuted): a function name whose derived
`(repo_name, descriptor)` pair matches no table entry can still resolve to a
non-default title: for `myrepo-DEV-es-logs-plugin` against a table whose only
entry is `(myrepo, loadTestData)`, the derived pair `(myrepo, es-logs-plugin)`
matches no entry, yet the `es-logs-plugin` conditional (keyed on repo name
alone) sets the title to `My Label ES logger` instead of the raw name. -/
theorem c4_original_claim_false :
    (∀ kv ∈ [((lit "myrepo_lookup"),
        (⟨lit "myrepo", lit "loadTestData", lit "data_ingest", lit "My Label"⟩
          : LookupEntry))],
      ¬ (kv.2.repo_name
            = (parseFunctionName (lit "myrepo-DEV-es-logs-plugin") (lit "DEV")).1
          ∧ kv.2.descriptor
            = (parseFunctionName (lit "myrepo-DEV-es-logs-plugin") (lit "DEV")).2))
    ∧ get_widget_properties
        [((lit "myrepo_lookup"),
          ⟨lit "myrepo", lit "loadTestData", lit "data_ingest", lit "My Label"⟩)]
        (lit "myrepo-DEV-es-logs-plugin") (lit "DEV")
        = (lit "My Label ES logger", lit "data_ingest")
    ∧ (lit "My Label ES logger", lit "data_ingest")
        ≠ ((lit "myrepo-DEV-es-logs-plugin"), lit "not defined") := by
  refine ⟨by decide, by decide, by decide⟩

/-- C4 (amended): if the derived `(repo_name, descriptor)` pair matches no
table entry, and additionally — when the descriptor is `es-logs-plugin` — no
entry shares the repo name, then title resolution does not raise:
`get_widget_properties` returns the raw function name with the `not defined`
category; and the state-machine title resolution falls back to the raw state
machine name whenever the tier-stripped name is missing from its table. -/
theorem c4_amended_lookup_miss_defaults
    (tbl : List (Str × LookupEntry)) (function_name deploy_stage : Str)
    (smTbl : List (Str × Str)) (sm_name sm_stage : Str)
    (hmiss : ∀ kv ∈ tbl,
      ¬ ((parseFunctionName function_name deploy_stage).1 = kv.2.repo_name
          ∧ (parseFunctionName function_name deploy_stage).2 = kv.2.descriptor))
    (hes : (parseFunctionName function_name deploy_stage).2 = lit "es-logs-plugin" →
      ∀ kv ∈ tbl, (parseFunctionName function_name deploy_stage).1 ≠ kv.2.repo_name)
    (hsm : assocGet smTbl (pyReplace sm_name ('-' :: sm_stage) []) = none) :
    get_widget_properties tbl function_name deploy_stage
      = (function_name, lit "not defined")
    ∧ resolve_sm_title smTbl sm_stage sm_name = sm_name := by
  constructor
  · unfold get_widget_properties
    dsimp only
    apply lookupFold_none
    intro kv hkv
    unfold lookupStepVal
    rw [if_neg (fun hc => hes hc.2 kv hkv hc.1), if_neg (hmiss kv hkv)]
  · simp only [resolve_sm_title, hsm]

/-- C4 witness: the defaults at a concrete unmatched name and a concrete
missing state-machine key. -/
theorem c4_amended_lookup_miss_defaults_witness :
    get_widget_properties
        [((lit "other_lookup"), ⟨lit "other", lit "x", lit "dv", lit "L"⟩)]
        (lit "plainrepo-DEV-load") (lit "DEV")
      = (lit "plainrepo-DEV-load", lit "not defined")
    ∧ resolve_sm_title [] (lit "DEV") (lit "foo-DEV") = lit "foo-DEV" :=
  c4_amended_lookup_miss_defaults
    [((lit "other_lookup"), ⟨lit "other", lit "x", lit "dv", lit "L"⟩)]
    (lit "plainrepo-DEV-load") (lit "DEV") [] (lit "foo-DEV") (lit "DEV")
    (by decide) (by decide) rfl

-- widgets -------------------------------------------------------------------

/-- JSON-like values: the widget dictionaries the builders emit (object fields
kept in source insertion order). -/
inductive JVal where
  | str : Str → JVal
  | num : Nat → JVal
  | bool : Bool → JVal
  | arr : List JVal → JVal
  | obj : List (Str × JVal) → JVal

/-- Shorthand for string values. -/
def js (s : Str) : JVal := JVal.str s

/-- Shorthand for numeric values. -/
def jn (n : Nat) : JVal := JVal.num n

/-- Shorthand for boolean values. -/
def jb (b : Bool) : JVal := JVal.bool b

/-- Shorthand for arrays. -/
def ja (l : List JVal) : JVal := JVal.arr l

/-- Shorthand for objects. -/
def jo (l : List (Str × JVal)) : JVal := JVal.obj l

/-- Modelled from the spec: the shared mutable `positioning` dictionary of
`constants.py` (absent from the sources), the widget layout state reused and
overwritten across widget constructions; the sources in scope read only its
`width` and `height` entries, and overwrite both before every read. -/
structure Positioning where
  width : Nat
  height : Nat

/-- The record `get_iow_functions` builds per matched lambda. -/
structure IowFunction where
  function_name : Str
  title : Str
  etl_branch : Str

/-- `lambda_properties` (lambdas.py lines 371–384): look the name up in
`dashboard_lambdas` and build the tier-qualified function name and display
label.  A missing key raises KeyError in Python; that branch is modelled with
empty strings and is not relied on by any theorem. -/
def lambda_properties (dashboard_lambdas : List (Str × LookupEntry))
    (lookup_name deploy_stage : Str) : Str × Str :=
  match assocGet dashboard_lambdas lookup_name with
  | some properties =>
      (properties.repo_name ++ '-' :: deploy_stage ++ '-' :: properties.descriptor,
       properties.label)
  | none => ([], [])

/-- `generate_custom_lambda_metrics` (lambdas.py lines 387–424): the first
metric row carries the full namespace/metric/dimension prefix, subsequent rows
use the `...` elision; `custom_lambda_widgets` is the lookup-list table of
`lookups.py`, passed in as data. -/
def generate_custom_lambda_metrics (dashboard_lambdas : List (Str × LookupEntry))
    (custom_lambda_widgets : List (Str × List Str))
    (deploy_stage metric_name lookup_list_name : Str) : List JVal :=
  match (assocGet custom_lambda_widgets lookup_list_name).getD [] with
  | [] => []
  | first :: others =>
    (ja [js (lit "AWS/Lambda"), js metric_name, js (lit "FunctionName"),
        js (lambda_properties dashboard_lambdas first deploy_stage).1,
        jo [(lit "label", js (lambda_properties dashboard_lambdas first deploy_stage).2)]])
    :: others.map (fun name =>
        ja [js (lit "..."),
            js (lambda_properties dashboard_lambdas name deploy_stage).1,
            jo [(lit "label", js (lambda_properties dashboard_lambdas name deploy_stage).2)]])

/-- The `numeric_stats_widget` of `create_lambda_widgets`. -/
def numeric_stats_widget (region : Str) (pos : Positioning)
    (function_name title : Str) : JVal :=
  jo [(lit "type", js (lit "metric")),
      (lit "height", jn pos.height),
      (lit "width", jn pos.width),
      (lit "properties", jo [
        (lit "metrics", ja [
          ja [js (lit "AWS/Lambda"), js (lit "Invocations"), js (lit "FunctionName"),
              js function_name, jo [(lit "stat", js (lit "Sum"))]],
          ja [js (lit "."), js (lit "Errors"), js (lit "."), js (lit "."),
              jo [(lit "stat", js (lit "Sum"))]],
          ja [js (lit "."), js (lit "Duration"), js (lit "."), js (lit ".")],
          ja [js (lit "."), js (lit "ConcurrentExecutions"), js (lit "."), js (lit ".")],
          ja [js (lit "."), js (lit "Throttles"), js (lit "."), js (lit ".")]]),
        (lit "view", js (lit "singleValue")),
        (lit "region", js region),
        (lit "title", js title),
        (lit "period", jn 300),
        (lit "stacked", jb false),
        (lit "stat", js (lit "Average"))])]

/-- The `concurrent_executions_widget` of `create_lambda_widgets`. -/
def concurrent_executions_widget (region : Str) (pos : Positioning)
    (function_name title : Str) : JVal :=
  jo [(lit "type", js (lit "metric")),
      (lit "height", jn pos.height),
      (lit "width", jn pos.width),
      (lit "properties", jo [
        (lit "metrics", ja [
          ja [js (lit "AWS/Lambda"), js (lit "ConcurrentExecutions"),
              js (lit "FunctionName"), js function_name,
              jo [(lit "stat", js (lit "Maximum")),
                  (lit "label", js (lit "ConcurrentExecutions (max)"))]],
          ja [js (lit "."), js (lit "Invocations"), js (lit "."), js (lit ".")],
          ja [js (lit "."), js (lit "Errors"), js (lit "."), js (lit ".")],
          ja [js (lit "."), js (lit "Throttles"), js (lit "."), js (lit "."),
              jo [(lit "stat", js (lit "Average"))]]]),
        (lit "view", js (lit "timeSeries")),
        (lit "region", js region),
        (lit "title", js (title ++ lit " Concurrent Executions")),
        (lit "period", jn 300),
        (lit "stat", js (lit "Sum")),
        (lit "stacked", jb false)])]

/-- The `duration_widget` of `create_lambda_widgets`. -/
def duration_widget (region : Str) (pos : Positioning)
    (function_name title : Str) : JVal :=
  jo [(lit "type", js (lit "metric")),
      (lit "height", jn pos.height),
      (lit "width", jn pos.width),
      (lit "properties", jo [
        (lit "metrics", ja [
          ja [js (lit "AWS/Lambda"), js (lit "Duration"), js (lit "FunctionName"),
              js function_name, jo [(lit "yAxis", js (lit "left"))]],
          ja [js (lit "..."),
              jo [(lit "yAxis", js (lit "right")), (lit "stat", js (lit "Maximum"))]]]),
        (lit "view", js (lit "timeSeries")),
        (lit "region", js region),
        (lit "title", js (title ++ lit " Duration")),
        (lit "period", jn 300),
        (lit "stat", js (lit "Average")),
        (lit "stacked", jb false)])]

/-- The three widgets `create_lambda_widgets` builds per matched function
(`widgets = [numeric_stats_widget, concurrent_executions_widget,
duration_widget]`). -/
def generic_lambda_widgets (region : Str) (pos : Positioning)
    (function : IowFunction) : List JVal :=
  [numeric_stats_widget region pos function.function_name function.title,
   concurrent_executions_widget region pos function.function_name function.title,
   duration_widget region pos function.function_name function.title]

/-- The eight etl-branch bucket lists `create_lambda_widgets` accumulates. -/
structure Buckets where
  dv_widgets : List JVal
  sv_widgets : List JVal
  data_in_widgets : List JVal
  data_purge_widgets : List JVal
  error_widgets : List JVal
  environment_management_widgets : List JVal
  nwis_web_widgets : List JVal
  misc_widgets : List JVal

/-- The inner `sort_widgets_by_etl_branch` of `create_lambda_widgets` (lines
218–236): append each widget of the list to the bucket selected by the
captured branch, via the `elif` chain in source order, the undefined-branch
`else` feeding `misc_widgets`. -/
def sort_widgets_by_etl_branch (branch : Str) (widget_list : List JVal)
    (B : Buckets) : Buckets :=
  widget_list.foldl (fun B w =>
    if lit "dv" = branch then
      {B with dv_widgets := B.dv_widgets ++ [w]}
    else if lit "sv" = branch then
      {B with sv_widgets := B.sv_widgets ++ [w]}
    else if lit "environment_management" = branch then
      {B with environment_management_widgets := B.environment_management_widgets ++ [w]}
    else if lit "error_handling" = branch then
      {B with error_widgets := B.error_widgets ++ [w]}
    else if lit "data_ingest" = branch then
      {B with data_in_widgets := B.data_in_widgets ++ [w]}
    else if lit "data_purging" = branch then
      {B with data_purge_widgets := B.data_purge_widgets ++ [w]}
    else if lit "nwis_web" = branch then
      {B with nwis_web_widgets := B.nwis_web_widgets ++ [w]}
    else
      {B with misc_widgets := B.misc_widgets ++ [w]}) B

/-- The per-function loop of `create_lambda_widgets` (lines 145–238), the
positioning state threaded through: set the generic widget dimensions, build
the three widgets, and bucket them by etl branch. -/
def lambda_widget_loop (region : Str) (iow_functions : List IowFunction)
    (st : Buckets × Positioning) : Buckets × Positioning :=
  iow_functions.foldl (fun st function =>
    let pos : Positioning := { st.2 with width := 8, height := 6 }
    (sort_widgets_by_etl_branch function.etl_branch
      (generic_lambda_widgets region pos function) st.1, pos)) st

/-- `create_lambda_widgets` (lambdas.py lines 10–251), with the
`positioning` dict threaded as explicit state and the `lookups.py` tables and
the filtered function list passed as data; returns the widget list and the
final positioning state. -/
def create_lambda_widgets (dashboard_lambdas : List (Str × LookupEntry))
    (custom_lambda_widgets : List (Str × List Str))
    (region deploy_stage : Str) (iow_functions : List IowFunction)
    (pos : Positioning) : List JVal × Positioning :=
  let pos1 : Positioning := { pos with width := 24, height := 1 }
  let custom_lambda_section_title_widget := jo [
    (lit "type", js (lit "text")),
    (lit "height", jn pos1.height),
    (lit "width", jn pos1.width),
    (lit "properties", jo [(lit "markdown", js (lit "# Lambda Status"))])]
  let pos2 : Positioning := { pos1 with width := 12, height := 6 }
  let error_handler_activity := jo [
    (lit "type", js (lit "metric")),
    (lit "height", jn pos2.height),
    (lit "width", jn pos2.width),
    (lit "properties", jo [
      (lit "metrics", ja [
        ja [js (lit "AWS/Lambda"), js (lit "ConcurrentExecutions"),
            js (lit "FunctionName"),
            js (lambda_properties dashboard_lambdas (lit "error_handler") deploy_stage).1,
            js (lit "Resource"),
            js (lambda_properties dashboard_lambdas (lit "error_handler") deploy_stage).1],
        ja [js (lit "."), js (lit "Invocations"), js (lit "."), js (lit "."),
            jo [(lit "stat", js (lit "Sum"))]]]),
      (lit "view", js (lit "timeSeries")),
      (lit "stacked", jb false),
      (lit "region", js region),
      (lit "title", js (lit "Error Handler Activity")),
      (lit "period", jn 60),
      (lit "stat", js (lit "Average"))])]
  let concurrent_lambdas := jo [
    (lit "type", js (lit "metric")),
    (lit "height", jn pos2.height),
    (lit "width", jn pos2.width),
    (lit "properties", jo [
      (lit "metrics", ja (generate_custom_lambda_metrics dashboard_lambdas
          custom_lambda_widgets deploy_stage (lit "ConcurrentExecutions")
          (lit "concurrent_lambdas"))),
      (lit "view", js (lit "timeSeries")),
      (lit "stacked", jb true),
      (lit "region", js region),
      (lit "period", jn 60),
      (lit "stat", js (lit "Average")),
      (lit "title", js (lit "Concurrent Lambdas (Average per minute)"))])]
  let duration_of_transform_db_lambdas_average := jo [
    (lit "type", js (lit "metric")),
    (lit "height", jn pos2.height),
    (lit "width", jn pos2.width),
    (lit "properties", jo [
      (lit "metrics", ja (generate_custom_lambda_metrics dashboard_lambdas
          custom_lambda_widgets deploy_stage (lit "Duration")
          (lit "duration_of_transform_db_lambdas"))),
      (lit "view", js (lit "timeSeries")),
      (lit "stacked", jb false),
      (lit "region", js region),
      (lit "period", jn 300),
      (lit "stat", js (lit "Average")),
      (lit "title", js (lit "Duration of Transformation DB Lambdas (Average)"))])]
  let duration_of_transform_db_lambdas_max := jo [
    (lit "type", js (lit "metric")),
    (lit "height", jn pos2.height),
    (lit "width", jn pos2.width),
    (lit "properties", jo [
      (lit "metrics", ja (generate_custom_lambda_metrics dashboard_lambdas
          custom_lambda_widgets deploy_stage (lit "Duration")
          (lit "duration_of_transform_db_lambdas"))),
      (lit "view", js (lit "timeSeries")),
      (lit "stacked", jb false),
      (lit "region", js region),
      (lit "period", jn 300),
      (lit "stat", js (lit "Maximum")),
      (lit "title", js (lit "Duration of Transformation DB Lambdas (Maximum)"))])]
  let pos3 : Positioning := { pos2 with width := 24, height := 1 }
  let autogenerated_lambdas_title_widget := jo [
    (lit "type", js (lit "text")),
    (lit "height", jn pos3.height),
    (lit "width", jn pos3.width),
    (lit "properties", jo [(lit "markdown",
      js (lit "# Status of each \x27IOW\x27 tagged lambda in the account"))])]
  let looped := lambda_widget_loop region iow_functions
    (⟨[], [], [], [], [], [], [], []⟩, pos3)
  ([custom_lambda_section_title_widget, error_handler_activity, concurrent_lambdas,
    duration_of_transform_db_lambdas_average, duration_of_transform_db_lambdas_max,
    autogenerated_lambdas_title_widget]
    ++ (looped.1.error_widgets ++ (looped.1.data_in_widgets ++ (looped.1.dv_widgets
      ++ (looped.1.sv_widgets ++ (looped.1.nwis_web_widgets
      ++ (looped.1.data_purge_widgets ++ (looped.1.environment_management_widgets
      ++ looped.1.misc_widgets))))))),
   looped.2)

/-- The `memory_usage_widget` of `create_lambda_memory_usage_widgets`. -/
def memory_usage_widget (region : Str) (pos : Positioning)
    (function_name title : Str) : JVal :=
  jo [(lit "type", js (lit "log")),
      (lit "height", jn pos.height),
      (lit "width", jn pos.width),
      (lit "properties", jo [
        (lit "query", js (lit "SOURCE \x27/aws/lambda/" ++ function_name
          ++ lit "\x27 | filter @type=\"REPORT\" | max(@memorySize) as allocatedMemory, avg(@maxMemoryUsed) as mean_MemoryUsed, max(@maxMemoryUsed) as max_MemoryUsed by bin(5min)")),
        (lit "region", js region),
        (lit "title", js (title ++ lit " Memory Usage")),
        (lit "view", js (lit "timeSeries")),
        (lit "stacked", jb false)])]

/-- One iteration of the memory-usage loop: set the dimensions, build the
widget, append it. -/
def memory_usage_step (region : Str) (st : List JVal × Positioning)
    (function : IowFunction) : List JVal × Positioning :=
  let pos : Positioning := { st.2 with width := 24, height := 6 }
  (st.1 ++ [memory_usage_widget region pos function.function_name function.title],
   pos)

/-- The memory-usage section title widget (built at width 24, height 1). -/
def memory_usage_lambdas_title_widget : JVal :=
  jo [(lit "type", js (lit "text")),
      (lit "height", jn 1),
      (lit "width", jn 24),
      (lit "properties", jo [(lit "markdown",
        js (lit "# Memory usage of each \x27IOW\x27 tagged lambda in the account"))])]

/-- `create_lambda_memory_usage_widgets` (lambdas.py lines 254–298) with the
positioning state threaded explicitly. -/
def create_lambda_memory_usage_widgets (region : Str)
    (iow_functions : List IowFunction) (pos : Positioning) :
    List JVal × Positioning :=
  let pos1 : Positioning := { pos with width := 24, height := 1 }
  iow_functions.foldl (memory_usage_step region)
    ([memory_usage_lambdas_title_widget], pos1)

/-- `get_iow_functions` (lambdas.py lines 301–333): filter the fetched lambda
metadata with the tag filter and package each match's name, resolved title and
etl branch; the already-fetched function list stands in for the
`get_all_lambda_metadata` response and the tag environment for the
`get_function` calls. -/
def iow_function_record (dashboard_lambdas : List (Str × LookupEntry))
    (deploy_stage : Str) (function : LambdaFn) : IowFunction :=
  -- the record get_iow_functions appends per matched function

  { function_name := function.FunctionName,
    title := (get_widget_properties dashboard_lambdas
      function.FunctionName deploy_stage).1,
    etl_branch := (get_widget_properties dashboard_lambdas
      function.FunctionName deploy_stage).2 }

def get_iow_functions (dashboard_lambdas : List (Str × LookupEntry))
    (deploy_stage : Str) (get_function_tags : Str → Option (List (Str × Str)))
    (functions : List LambdaFn) : List IowFunction :=
  functions.foldl (fun acc function =>
    if is_iow_lambda_filter deploy_stage get_function_tags function then
      acc ++ [iow_function_record dashboard_lambdas deploy_stage function]
    else acc) []

/-- The per-machine widget of `create_state_machine_widgets`. -/
def state_machine_widget (region : Str) (pos : Positioning)
    (state_machine_arn widget_title : Str) : JVal :=
  jo [(lit "type", js (lit "metric")),
      (lit "height", jn pos.height),
      (lit "width", jn pos.width),
      (lit "properties", jo [
        (lit "metrics", ja [
          ja [js (lit "AWS/States"), js (lit "ExecutionsStarted"),
              js (lit "StateMachineArn"), js state_machine_arn],
          ja [js (lit "."), js (lit "ExecutionsSucceeded"), js (lit "."), js (lit ".")],
          ja [js (lit "."), js (lit "ExecutionsFailed"), js (lit "."), js (lit ".")],
          ja [js (lit "."), js (lit "ExecutionsTimedOut"), js (lit "."), js (lit ".")]]),
        (lit "view", js (lit "timeSeries")),
        (lit "stacked", jb false),
        (lit "region", js region),
        (lit "stat", js (lit "Sum")),
        (lit "period", jn 60),
        (lit "title", js widget_title)])]

/-- The state-machine section title widget (built at width 24, height 1). -/
def state_machine_section_title_widget : JVal :=
  jo [(lit "type", js (lit "text")),
      (lit "height", jn 1),
      (lit "width", jn 24),
      (lit "properties", jo [(lit "markdown", js (lit "# State Machine Status"))])]

/-- One iteration of the state-machine loop: filter on the arn; on a match,
resolve the title, set the dimensions and append the widget. -/
def state_machine_step (state_machines_lookup : List (Str × Str))
    (region deploy_stage : Str)
    (list_tags_for_resource : Str → Option (List SfnTag))
    (st : List JVal × Positioning) (state_machine : StateMachine) :
    List JVal × Positioning :=
  if is_iow_state_machine_filter deploy_stage list_tags_for_resource
      state_machine.stateMachineArn then
    let pos : Positioning := { st.2 with width := 12, height := 6 }
    (st.1 ++ [state_machine_widget region pos state_machine.stateMachineArn
      (resolve_sm_title state_machines_lookup deploy_stage state_machine.name)],
     pos)
  else st

/-- `create_state_machine_widgets` (state_machine.py lines 11–85) with the API
environment explicit: the state-machine records stand in for the
`get_all_state_machines` response, `list_tags_for_resource` for the
per-resource tag call, and `state_machines_lookup` is the `state_machines`
table of `lookups.py`. -/
def create_state_machine_widgets (state_machines_lookup : List (Str × Str))
    (region deploy_stage : Str)
    (list_tags_for_resource : Str → Option (List SfnTag))
    (machines : List StateMachine) (pos : Positioning) :
    List JVal × Positioning :=
  let pos1 : Positioning := { pos with width := 24, height := 1 }
  machines.foldl
    (state_machine_step state_machines_lookup region deploy_stage
      list_tags_for_resource)
    ([state_machine_section_title_widget], pos1)

-- bucket machinery for the category partitioner ------------------------------

/-- The display priority of an etl branch: the position of its bucket in the
final concatenation order of `create_lambda_widgets` (error handling first,
the undefined bucket last). -/
def branchPriority (branch : Str) : Nat :=
  if lit "error_handling" = branch then 0
  else if lit "data_ingest" = branch then 1
  else if lit "dv" = branch then 2
  else if lit "sv" = branch then 3
  else if lit "nwis_web" = branch then 4
  else if lit "data_purging" = branch then 5
  else if lit "environment_management" = branch then 6
  else 7

theorem branchPriority_lt (branch : Str) : branchPriority branch < 8 := by
  unfold branchPriority
  split_ifs <;> omega

/-- The bucket at a given display priority. -/
def bucketGet (i : Nat) (B : Buckets) : List JVal :=
  match i with
  | 0 => B.error_widgets
  | 1 => B.data_in_widgets
  | 2 => B.dv_widgets
  | 3 => B.sv_widgets
  | 4 => B.nwis_web_widgets
  | 5 => B.data_purge_widgets
  | 6 => B.environment_management_widgets
  | _ => B.misc_widgets

/-- Replace the bucket at a given display priority. -/
def bucketSet (i : Nat) (B : Buckets) (l : List JVal) : Buckets :=
  match i with
  | 0 => {B with error_widgets := l}
  | 1 => {B with data_in_widgets := l}
  | 2 => {B with dv_widgets := l}
  | 3 => {B with sv_widgets := l}
  | 4 => {B with nwis_web_widgets := l}
  | 5 => {B with data_purge_widgets := l}
  | 6 => {B with environment_management_widgets := l}
  | _ => {B with misc_widgets := l}

/-- Appending a widget list to the branch's bucket in one step. -/
def bucketAppend (branch : Str) (B : Buckets) (ws : List JVal) : Buckets :=
  bucketSet (branchPriority branch) B (bucketGet (branchPriority branch) B ++ ws)

theorem sortStep_eq (branch : Str) (B : Buckets) (w : JVal) :
    (if lit "dv" = branch then
      {B with dv_widgets := B.dv_widgets ++ [w]}
    else if lit "sv" = branch then
      {B with sv_widgets := B.sv_widgets ++ [w]}
    else if lit "environment_management" = branch then
      {B with environment_management_widgets := B.environment_management_widgets ++ [w]}
    else if lit "error_handling" = branch then
      {B with error_widgets := B.error_widgets ++ [w]}
    else if lit "data_ingest" = branch then
      {B with data_in_widgets := B.data_in_widgets ++ [w]}
    else if lit "data_purging" = branch then
      {B with data_purge_widgets := B.data_purge_widgets ++ [w]}
    else if lit "nwis_web" = branch then
      {B with nwis_web_widgets := B.nwis_web_widgets ++ [w]}
    else
      {B with misc_widgets := B.misc_widgets ++ [w]})
    = bucketAppend branch B [w] := by
  by_cases h1 : lit "dv" = branch
  · subst h1; rfl
  rw [if_neg h1]
  by_cases h2 : lit "sv" = branch
  · subst h2; rfl
  rw [if_neg h2]
  by_cases h3 : lit "environment_management" = branch
  · subst h3; rfl
  rw [if_neg h3]
  by_cases h4 : lit "error_handling" = branch
  · subst h4; rfl
  rw [if_neg h4]
  by_cases h5 : lit "data_ingest" = branch
  · subst h5; rfl
  rw [if_neg h5]
  by_cases h6 : lit "data_purging" = branch
  · subst h6; rfl
  rw [if_neg h6]
  by_cases h7 : lit "nwis_web" = branch
  · subst h7; rfl
  rw [if_neg h7]
  have hp : branchPriority branch = 7 := by
    unfold branchPriority
    rw [if_neg h4, if_neg h5, if_neg h1, if_neg h2, if_neg h7, if_neg h6, if_neg h3]
  unfold bucketAppend
  rw [hp]
  rfl

theorem bucketAppend_append (branch : Str) (B : Buckets) (ws1 ws2 : List JVal) :
    bucketAppend branch (bucketAppend branch B ws1) ws2
      = bucketAppend branch B (ws1 ++ ws2) := by
  unfold bucketAppend
  generalize branchPriority branch = j
  rcases j with _|_|_|_|_|_|_|j <;> simp [bucketGet, bucketSet, List.append_assoc]

theorem sort_widgets_cons (branch : Str) (w : JVal) (ws : List JVal) (B : Buckets) :
    sort_widgets_by_etl_branch branch (w :: ws) B
      = sort_widgets_by_etl_branch branch ws (bucketAppend branch B [w]) := by
  unfold sort_widgets_by_etl_branch
  rw [List.foldl_cons]
  rw [sortStep_eq]

theorem sort_widgets_eq_bucketAppend (branch : Str) (ws : List JVal) (B : Buckets) :
    sort_widgets_by_etl_branch branch ws B = bucketAppend branch B ws := by
  induction ws generalizing B with
  | nil =>
    unfold sort_widgets_by_etl_branch bucketAppend
    rw [List.foldl_nil, List.append_nil]
    generalize branchPriority branch = j
    rcases j with _|_|_|_|_|_|_|j <;> rfl
  | cons w ws ih =>
    rw [sort_widgets_cons, ih, bucketAppend_append]
    rfl

theorem bucketGet_bucketAppend (branch : Str) (B : Buckets) (ws : List JVal)
    (i : Nat) (hi : i < 8) :
    bucketGet i (bucketAppend branch B ws)
      = bucketGet i B ++ (if branchPriority branch = i then ws else []) := by
  unfold bucketAppend
  have hj := branchPriority_lt branch
  generalize hjj : branchPriority branch = j at *
  interval_cases i <;> interval_cases j <;> simp [bucketGet, bucketSet]

/-- The per-function generated widgets annotated with their etl branch, in
input (insertion) order; the per-iteration positioning is the constant the
loop overwrites it with (width 8, height 6). -/
def genAnnotated (region : Str) (fns : List IowFunction) : List (Str × JVal) :=
  fns.flatMap (fun f =>
    (generic_lambda_widgets region ⟨8, 6⟩ f).map (fun w => (f.etl_branch, w)))

theorem lambda_widget_loop_bucket (region : Str) (fns : List IowFunction)
    (B : Buckets) (pos : Positioning) (i : Nat) (hi : i < 8) :
    bucketGet i ((lambda_widget_loop region fns (B, pos)).1)
      = bucketGet i B ++ ((genAnnotated region fns).filter
          (fun x => decide (branchPriority x.1 = i))).map Prod.snd := by
  induction fns generalizing B pos with
  | nil => simp [lambda_widget_loop, genAnnotated]
  | cons f fns ih =>
    have hstep : lambda_widget_loop region (f :: fns) (B, pos)
        = lambda_widget_loop region fns
            (bucketAppend f.etl_branch B (generic_lambda_widgets region ⟨8, 6⟩ f),
             ⟨8, 6⟩) := by
      unfold lambda_widget_loop
      rw [List.foldl_cons]
      rw [show (sort_widgets_by_etl_branch f.etl_branch
            (generic_lambda_widgets region ⟨8, 6⟩ f) B, (⟨8, 6⟩ : Positioning))
          = (bucketAppend f.etl_branch B (generic_lambda_widgets region ⟨8, 6⟩ f),
             (⟨8, 6⟩ : Positioning)) from by rw [sort_widgets_eq_bucketAppend]]
    rw [hstep, ih, bucketGet_bucketAppend _ _ _ i hi]
    have hgen : genAnnotated region (f :: fns)
        = (generic_lambda_widgets region ⟨8, 6⟩ f).map (fun w => (f.etl_branch, w))
          ++ genAnnotated region fns := rfl
    rw [hgen, List.filter_append, List.map_append]
    by_cases hb : branchPriority f.etl_branch = i
    · have hfil : ((generic_lambda_widgets region ⟨8, 6⟩ f).map
          (fun w => (f.etl_branch, w))).filter
            (fun x => decide (branchPriority x.1 = i))
          = (generic_lambda_widgets region ⟨8, 6⟩ f).map (fun w => (f.etl_branch, w)) := by
        apply List.filter_eq_self.mpr
        intro x hx
        obtain ⟨w, _, rfl⟩ := List.mem_map.mp hx
        simpa using hb
      rw [hfil, if_pos hb, List.map_map]
      have : (Prod.snd ∘ fun w => (f.etl_branch, w))
          = (id : JVal → JVal) := rfl
      rw [this, List.map_id, List.append_assoc]
    · have hfil : ((generic_lambda_widgets region ⟨8, 6⟩ f).map
          (fun w => (f.etl_branch, w))).filter
            (fun x => decide (branchPriority x.1 = i)) = [] := by
        apply List.filter_eq_nil_iff.mpr
        intro x hx
        obtain ⟨w, _, rfl⟩ := List.mem_map.mp hx
        simpa using hb
      rw [hfil, if_neg hb]
      simp

/-- The autogenerated widgets annotated with their branch, in the bucketed
display order: the eight priority classes concatenated in ascending priority,
each class keeping insertion order. -/
def orderedAnnotated (region : Str) (fns : List IowFunction) : List (Str × JVal) :=
  (List.range 8).flatMap (fun k =>
    (genAnnotated region fns).filter (fun x => decide (branchPriority x.1 = k)))


/-- The six fixed widgets `create_lambda_widgets` emits before the
autogenerated section (title, error-handler activity, concurrent lambdas,
two transform-duration widgets, and the autogenerated-section title), with
the positioning values they are built at. -/
def custom_prefix_widgets (dashboard_lambdas : List (Str × LookupEntry))
    (custom_lambda_widgets : List (Str × List Str)) (region deploy_stage : Str) :
    List JVal :=
  [jo [(lit "type", js (lit "text")),
      (lit "height", jn 1),
      (lit "width", jn 24),
      (lit "properties", jo [(lit "markdown", js (lit "# Lambda Status"))])],
   jo [(lit "type", js (lit "metric")),
      (lit "height", jn 6),
      (lit "width", jn 12),
      (lit "properties", jo [
        (lit "metrics", ja [
          ja [js (lit "AWS/Lambda"), js (lit "ConcurrentExecutions"),
              js (lit "FunctionName"),
              js (lambda_properties dashboard_lambdas (lit "error_handler") deploy_stage).1,
              js (lit "Resource"),
              js (lambda_properties dashboard_lambdas (lit "error_handler") deploy_stage).1],
          ja [js (lit "."), js (lit "Invocations"), js (lit "."), js (lit "."),
              jo [(lit "stat", js (lit "Sum"))]]]),
        (lit "view", js (lit "timeSeries")),
        (lit "stacked", jb false),
        (lit "region", js region),
        (lit "title", js (lit "Error Handler Activity")),
        (lit "period", jn 60),
        (lit "stat", js (lit "Average"))])],
   jo [(lit "type", js (lit "metric")),
      (lit "height", jn 6),
      (lit "width", jn 12),
      (lit "properties", jo [
        (lit "metrics", ja (generate_custom_lambda_metrics dashboard_lambdas
            custom_lambda_widgets deploy_stage (lit "ConcurrentExecutions")
            (lit "concurrent_lambdas"))),
        (lit "view", js (lit "timeSeries")),
        (lit "stacked", jb true),
        (lit "region", js region),
        (lit "period", jn 60),
        (lit "stat", js (lit "Average")),
        (lit "title", js (lit "Concurrent Lambdas (Average per minute)"))])],
   jo [(lit "type", js (lit "metric")),
      (lit "height", jn 6),
      (lit "width", jn 12),
      (lit "properties", jo [
        (lit "metrics", ja (generate_custom_lambda_metrics dashboard_lambdas
            custom_lambda_widgets deploy_stage (lit "Duration")
            (lit "duration_of_transform_db_lambdas"))),
        (lit "view", js (lit "timeSeries")),
        (lit "stacked", jb false),
        (lit "region", js region),
        (lit "period", jn 300),
        (lit "stat", js (lit "Average")),
        (lit "title", js (lit "Duration of Transformation DB Lambdas (Average)"))])],
   jo [(lit "type", js (lit "metric")),
      (lit "height", jn 6),
      (lit "width", jn 12),
      (lit "properties", jo [
        (lit "metrics", ja (generate_custom_lambda_metrics dashboard_lambdas
            custom_lambda_widgets deploy_stage (lit "Duration")
            (lit "duration_of_transform_db_lambdas"))),
        (lit "view", js (lit "timeSeries")),
        (lit "stacked", jb false),
        (lit "region", js region),
        (lit "period", jn 300),
        (lit "stat", js (lit "Maximum")),
        (lit "title", js (lit "Duration of Transformation DB Lambdas (Maximum)"))])],
   jo [(lit "type", js (lit "text")),
      (lit "height", jn 1),
      (lit "width", jn 24),
      (lit "properties", jo [(lit "markdown",
        js (lit "# Status of each \x27IOW\x27 tagged lambda in the account"))])]]

theorem create_lambda_widgets_decomp (dashboard_lambdas : List (Str × LookupEntry))
    (custom_lambda_widgets : List (Str × List Str)) (region deploy_stage : Str)
    (fns : List IowFunction) (pos : Positioning) :
    (create_lambda_widgets dashboard_lambdas custom_lambda_widgets region
        deploy_stage fns pos).1
      = custom_prefix_widgets dashboard_lambdas custom_lambda_widgets region deploy_stage
        ++ (orderedAnnotated region fns).map Prod.snd := by
  have hloop : ∀ i : Nat, i < 8 →
      bucketGet i ((lambda_widget_loop region fns
          (⟨[], [], [], [], [], [], [], []⟩, ⟨24, 1⟩)).1)
        = ((genAnnotated region fns).filter
            (fun x => decide (branchPriority x.1 = i))).map Prod.snd := by
    intro i hi
    rw [lambda_widget_loop_bucket region fns _ _ i hi]
    rcases i with _|_|_|_|_|_|_|i <;> rfl
  have hB : ∀ g : Nat → List (Str × JVal),
      ((List.range 8).flatMap g).map Prod.snd
        = (g 0).map Prod.snd ++ ((g 1).map Prod.snd ++ ((g 2).map Prod.snd
          ++ ((g 3).map Prod.snd ++ ((g 4).map Prod.snd ++ ((g 5).map Prod.snd
          ++ ((g 6).map Prod.snd ++ (g 7).map Prod.snd)))))) := by
    intro g
    show ((g 0 ++ (g 1 ++ (g 2 ++ (g 3 ++ (g 4 ++ (g 5 ++ (g 6 ++ (g 7 ++ []))))))))).map
        Prod.snd = _
    simp [List.map_append]
  have e0 : (lambda_widget_loop region fns
      (⟨[], [], [], [], [], [], [], []⟩, ⟨24, 1⟩)).1.error_widgets
      = ((genAnnotated region fns).filter
          (fun x => decide (branchPriority x.1 = 0))).map Prod.snd := hloop 0 (by omega)
  have e1 : (lambda_widget_loop region fns
      (⟨[], [], [], [], [], [], [], []⟩, ⟨24, 1⟩)).1.data_in_widgets
      = ((genAnnotated region fns).filter
          (fun x => decide (branchPriority x.1 = 1))).map Prod.snd := hloop 1 (by omega)
  have e2 : (lambda_widget_loop region fns
      (⟨[], [], [], [], [], [], [], []⟩, ⟨24, 1⟩)).1.dv_widgets
      = ((genAnnotated region fns).filter
          (fun x => decide (branchPriority x.1 = 2))).map Prod.snd := hloop 2 (by omega)
  have e3 : (lambda_widget_loop region fns
      (⟨[], [], [], [], [], [], [], []⟩, ⟨24, 1⟩)).1.sv_widgets
      = ((genAnnotated region fns).filter
          (fun x => decide (branchPriority x.1 = 3))).map Prod.snd := hloop 3 (by omega)
  have e4 : (lambda_widget_loop region fns
      (⟨[], [], [], [], [], [], [], []⟩, ⟨24, 1⟩)).1.nwis_web_widgets
      = ((genAnnotated region fns).filter
          (fun x => decide (branchPriority x.1 = 4))).map Prod.snd := hloop 4 (by omega)
  have e5 : (lambda_widget_loop region fns
      (⟨[], [], [], [], [], [], [], []⟩, ⟨24, 1⟩)).1.data_purge_widgets
      = ((genAnnotated region fns).filter
          (fun x => decide (branchPriority x.1 = 5))).map Prod.snd := hloop 5 (by omega)
  have e6 : (lambda_widget_loop region fns
      (⟨[], [], [], [], [], [], [], []⟩, ⟨24, 1⟩)).1.environment_management_widgets
      = ((genAnnotated region fns).filter
          (fun x => decide (branchPriority x.1 = 6))).map Prod.snd := hloop 6 (by omega)
  have e7 : (lambda_widget_loop region fns
      (⟨[], [], [], [], [], [], [], []⟩, ⟨24, 1⟩)).1.misc_widgets
      = ((genAnnotated region fns).filter
          (fun x => decide (branchPriority x.1 = 7))).map Prod.snd := hloop 7 (by omega)
  unfold create_lambda_widgets custom_prefix_widgets
  dsimp only
  rw [orderedAnnotated, hB, e0, e1, e2, e3, e4, e5, e6, e7]

-- ordering, stability and permutation of the bucketed output ----------------

theorem pairwise_of_mem_rel {α : Type} (r : α → α → Prop) (l : List α)
    (h : ∀ a ∈ l, ∀ b ∈ l, r a b) : l.Pairwise r := by
  induction l with
  | nil => exact List.Pairwise.nil
  | cons x l ih =>
    constructor
    · intro b hb
      exact h x (by simp) b (by simp [hb])
    · exact ih (fun a ha b hb => h a (by simp [ha]) b (by simp [hb]))

theorem pairwise_orderedAnnotated (region : Str) (fns : List IowFunction) :
    (orderedAnnotated region fns).Pairwise
      (fun a b => branchPriority a.1 ≤ branchPriority b.1) := by
  unfold orderedAnnotated
  generalize genAnnotated region fns = l
  have key : ∀ ks : List Nat, ks.Pairwise (fun a b => a ≤ b) →
      (ks.flatMap (fun k => l.filter
          (fun x => decide (branchPriority x.1 = k)))).Pairwise
        (fun a b => branchPriority a.1 ≤ branchPriority b.1) := by
    intro ks hks
    induction ks with
    | nil => simp
    | cons k ks ih =>
      rw [List.flatMap_cons]
      apply List.pairwise_append.mpr
      refine ⟨?_, ih (List.Pairwise.sublist (List.sublist_cons_self k ks) hks), ?_⟩
      · apply pairwise_of_mem_rel
        intro a ha b hb
        have ha' : branchPriority a.1 = k := by
          have := (List.mem_filter.mp ha).2
          simpa using this
        have hb' : branchPriority b.1 = k := by
          have := (List.mem_filter.mp hb).2
          simpa using this
        omega
      · intro a ha b hb
        have ha' : branchPriority a.1 = k := by
          have := (List.mem_filter.mp ha).2
          simpa using this
        obtain ⟨k', hk', hbk'⟩ := List.mem_flatMap.mp hb
        have hb' : branchPriority b.1 = k' := by
          have := (List.mem_filter.mp hbk').2
          simpa using this
        have hkk' : k ≤ k' := (List.pairwise_cons.mp hks).1 k' hk'
        omega
  exact key (List.range 8) (by decide)

theorem filter_flatMap {α β : Type} (l : List α) (f : α → List β) (p : β → Bool) :
    (l.flatMap f).filter p = l.flatMap (fun a => (f a).filter p) := by
  induction l with
  | nil => rfl
  | cons a l ih => rw [List.flatMap_cons, List.flatMap_cons, List.filter_append, ih]

theorem flatMap_all_nil {α β : Type} (l : List α) (f : α → List β)
    (h : ∀ a ∈ l, f a = []) : l.flatMap f = [] := by
  induction l with
  | nil => rfl
  | cons a l ih =>
    rw [List.flatMap_cons, h a (by simp), List.nil_append]
    exact ih (fun a ha => h a (by simp [ha]))

theorem flatMap_eq_single {β : Type} (ks : List Nat) (k0 : Nat)
    (g : Nat → List β) (hg : ∀ k ∈ ks, k ≠ k0 → g k = [])
    (hcount : ks.count k0 = 1) : ks.flatMap g = g k0 := by
  induction ks with
  | nil => simp at hcount
  | cons k ks ih =>
    by_cases hk : k = k0
    · subst hk
      rw [List.count_cons_self] at hcount
      have h0 : ks.count k = 0 := by omega
      have hnil : ks.flatMap g = [] := by
        apply flatMap_all_nil
        intro k' hk'
        have : k' ≠ k := by
          intro hkk
          subst hkk
          exact absurd hk' (List.count_eq_zero.mp h0)
        exact hg k' (by simp [hk']) this
      rw [List.flatMap_cons, hnil, List.append_nil]
    · rw [List.flatMap_cons, hg k (by simp) hk, List.nil_append]
      apply ih (fun k' hk' h' => hg k' (by simp [hk']) h')
      rw [List.count_cons_of_ne (fun h => hk h.symm)] at hcount
      exact hcount

theorem count_range_eight (k : Nat) (h : k < 8) : (List.range 8).count k = 1 := by
  interval_cases k <;> decide

theorem orderedAnnotated_stable (region : Str) (fns : List IowFunction) (br : Str) :
    (orderedAnnotated region fns).filter (fun x => decide (x.1 = br))
      = (genAnnotated region fns).filter (fun x => decide (x.1 = br)) := by
  unfold orderedAnnotated
  generalize genAnnotated region fns = l
  rw [filter_flatMap]
  have hterm : ∀ k : Nat,
      (l.filter (fun x => decide (branchPriority x.1 = k))).filter
          (fun x => decide (x.1 = br))
        = if branchPriority br = k then l.filter (fun x => decide (x.1 = br))
          else [] := by
    intro k
    rw [List.filter_filter]
    by_cases hk : branchPriority br = k
    · rw [if_pos hk]
      apply List.filter_congr
      intro x hx
      by_cases hxb : x.1 = br
      · simp [hxb, hk]
      · simp [hxb]
    · rw [if_neg hk]
      apply List.filter_eq_nil_iff.mpr
      intro x hx
      by_cases hxb : x.1 = br
      · simp [hxb, hk]
      · simp [hxb]
  simp only [hterm]
  rw [flatMap_eq_single (List.range 8) (branchPriority br) _
      (fun k _ hk => if_neg (fun hh => hk hh.symm))
      (count_range_eight _ (branchPriority_lt br))]
  rw [if_pos rfl]

theorem decide_prio_split (k : Nat) (n : Nat) :
    (!decide (n = k) && decide (k ≤ n)) = decide (k + 1 ≤ n) := by
  by_cases h1 : n = k <;> by_cases h2 : k ≤ n <;>
    simp [h1, h2] <;> omega

theorem perm_peel (l : List (Str × JVal)) (k : Nat) :
    List.Perm (l.filter (fun x => decide (k ≤ branchPriority x.1)))
      ((l.filter (fun x => decide (branchPriority x.1 = k)))
        ++ l.filter (fun x => decide (k + 1 ≤ branchPriority x.1))) := by
  have hp := List.filter_append_perm (fun x => decide (branchPriority x.1 = k))
      (l.filter (fun x => decide (k ≤ branchPriority x.1)))
  have h1 : (l.filter (fun x => decide (k ≤ branchPriority x.1))).filter
        (fun x => decide (branchPriority x.1 = k))
      = l.filter (fun x => decide (branchPriority x.1 = k)) := by
    rw [List.filter_filter]
    apply List.filter_congr
    intro x hx
    by_cases h : branchPriority x.1 = k
    · simp [h]
    · simp [h]
  have h2 : (l.filter (fun x => decide (k ≤ branchPriority x.1))).filter
        (fun x => !decide (branchPriority x.1 = k))
      = l.filter (fun x => decide (k + 1 ≤ branchPriority x.1)) := by
    rw [List.filter_filter]
    apply List.filter_congr
    intro x hx
    exact decide_prio_split k (branchPriority x.1)
  rw [h1, h2] at hp
  exact hp.symm

theorem orderedAnnotated_perm (region : Str) (fns : List IowFunction) :
    List.Perm (orderedAnnotated region fns) (genAnnotated region fns) := by
  unfold orderedAnnotated
  generalize genAnnotated region fns = l
  have h0 : l.filter (fun x => decide (0 ≤ branchPriority x.1)) = l := by
    apply List.filter_eq_self.mpr
    intro x hx
    simp
  have h8 : l.filter (fun x => decide (8 ≤ branchPriority x.1)) = [] := by
    apply List.filter_eq_nil_iff.mpr
    intro x hx
    have := branchPriority_lt x.1
    simp
    omega
  have step : ∀ k : Nat,
      List.Perm (l.filter (fun x => decide (k ≤ branchPriority x.1)))
        ((l.filter (fun x => decide (branchPriority x.1 = k)))
          ++ l.filter (fun x => decide (k + 1 ≤ branchPriority x.1))) :=
    perm_peel l
  have t0 : List.Perm l
      ((l.filter (fun x => decide (branchPriority x.1 = 0)))
        ++ l.filter (fun x => decide (1 ≤ branchPriority x.1))) := by
    have := step 0
    rw [h0] at this
    exact this
  have t1 := t0.trans (List.Perm.append_left _ (step 1))
  have t2 := t1.trans (List.Perm.append_left _ (List.Perm.append_left _ (step 2)))
  have t3 := t2.trans (List.Perm.append_left _ (List.Perm.append_left _
    (List.Perm.append_left _ (step 3))))
  have t4 := t3.trans (List.Perm.append_left _ (List.Perm.append_left _
    (List.Perm.append_left _ (List.Perm.append_left _ (step 4)))))
  have t5 := t4.trans (List.Perm.append_left _ (List.Perm.append_left _
    (List.Perm.append_left _ (List.Perm.append_left _
      (List.Perm.append_left _ (step 5))))))
  have t6 := t5.trans (List.Perm.append_left _ (List.Perm.append_left _
    (List.Perm.append_left _ (List.Perm.append_left _
      (List.Perm.append_left _ (List.Perm.append_left _ (step 6)))))))
  have t7 := t6.trans (List.Perm.append_left _ (List.Perm.append_left _
    (List.Perm.append_left _ (List.Perm.append_left _
      (List.Perm.append_left _ (List.Perm.append_left _
        (List.Perm.append_left _ (step 7))))))))
  have h8' : l.filter (fun x => decide (7 + 1 ≤ branchPriority x.1)) = [] := h8
  rw [h8'] at t7
  exact t7.symm

-- fold characterizations of the remaining builders ---------------------------

theorem get_iow_functions_eq (dashboard_lambdas : List (Str × LookupEntry))
    (deploy_stage : Str) (env : Str → Option (List (Str × Str)))
    (functions : List LambdaFn) :
    get_iow_functions dashboard_lambdas deploy_stage env functions
      = (functions.filter (is_iow_lambda_filter deploy_stage env)).map
          (iow_function_record dashboard_lambdas deploy_stage) := by
  unfold get_iow_functions
  have key : ∀ (fns : List LambdaFn) (acc : List IowFunction),
      fns.foldl (fun acc function =>
        if is_iow_lambda_filter deploy_stage env function then
          acc ++ [iow_function_record dashboard_lambdas deploy_stage function]
        else acc) acc
      = acc ++ (fns.filter (is_iow_lambda_filter deploy_stage env)).map
          (iow_function_record dashboard_lambdas deploy_stage) := by
    intro fns
    induction fns with
    | nil => intro acc; simp
    | cons f fns ih =>
      intro acc
      rw [List.foldl_cons]
      by_cases hf : is_iow_lambda_filter deploy_stage env f
      · rw [if_pos hf, ih, List.filter_cons_of_pos hf, List.map_cons,
            List.append_assoc]
        rfl
      · rw [if_neg hf, ih, List.filter_cons_of_neg hf]
  rw [key functions []]
  rfl

theorem memory_fold (region : Str) (fns : List IowFunction) (acc : List JVal)
    (pos : Positioning) :
    (fns.foldl (memory_usage_step region) (acc, pos)).1
      = acc ++ fns.map (fun f =>
          memory_usage_widget region ⟨24, 6⟩ f.function_name f.title) := by
  induction fns generalizing acc pos with
  | nil => simp
  | cons f fns ih =>
    rw [List.foldl_cons]
    show (fns.foldl (memory_usage_step region)
        (acc ++ [memory_usage_widget region ⟨24, 6⟩ f.function_name f.title],
         ⟨24, 6⟩)).1 = _
    rw [ih, List.append_assoc]
    rfl

theorem create_memory_decomp (region : Str) (fns : List IowFunction)
    (pos : Positioning) :
    (create_lambda_memory_usage_widgets region fns pos).1
      = memory_usage_lambdas_title_widget
        :: fns.map (fun f =>
            memory_usage_widget region ⟨24, 6⟩ f.function_name f.title) := by
  unfold create_lambda_memory_usage_widgets
  dsimp only
  rw [memory_fold]
  rfl

theorem sm_fold (smTbl : List (Str × Str)) (region deploy_stage : Str)
    (env : Str → Option (List SfnTag)) (machines : List StateMachine)
    (acc : List JVal) (pos : Positioning) :
    (machines.foldl (state_machine_step smTbl region deploy_stage env)
        (acc, pos)).1
      = acc ++ (machines.filter (fun m =>
          is_iow_state_machine_filter deploy_stage env m.stateMachineArn)).map
          (fun m => state_machine_widget region ⟨12, 6⟩ m.stateMachineArn
            (resolve_sm_title smTbl deploy_stage m.name)) := by
  induction machines generalizing acc pos with
  | nil => simp
  | cons m machines ih =>
    rw [List.foldl_cons]
    by_cases hm : is_iow_state_machine_filter deploy_stage env m.stateMachineArn
    · rw [show state_machine_step smTbl region deploy_stage env (acc, pos) m
          = (acc ++ [state_machine_widget region ⟨12, 6⟩ m.stateMachineArn
              (resolve_sm_title smTbl deploy_stage m.name)],
             (⟨12, 6⟩ : Positioning)) from by
            unfold state_machine_step
            rw [if_pos hm]]
      rw [ih, @List.filter_cons_of_pos StateMachine
            (fun mm => is_iow_state_machine_filter deploy_stage env mm.stateMachineArn)
            m machines hm, List.map_cons, List.append_assoc]
      rfl
    · rw [show state_machine_step smTbl region deploy_stage env (acc, pos) m
          = (acc, pos) from by
            unfold state_machine_step
            rw [if_neg hm]]
      rw [ih, @List.filter_cons_of_neg StateMachine
            (fun mm => is_iow_state_machine_filter deploy_stage env mm.stateMachineArn)
            m machines hm]

theorem create_sm_decomp (smTbl : List (Str × Str)) (region deploy_stage : Str)
    (env : Str → Option (List SfnTag)) (machines : List StateMachine)
    (pos : Positioning) :
    (create_state_machine_widgets smTbl region deploy_stage env machines pos).1
      = state_machine_section_title_widget
        :: (machines.filter (fun m =>
            is_iow_state_machine_filter deploy_stage env m.stateMachineArn)).map
          (fun m => state_machine_widget region ⟨12, 6⟩ m.stateMachineArn
            (resolve_sm_title smTbl deploy_stage m.name)) := by
  unfold create_state_machine_widgets
  dsimp only
  rw [sm_fold]
  rfl

theorem genAnnotated_map_snd (region : Str) (fns : List IowFunction) :
    (genAnnotated region fns).map Prod.snd
      = fns.flatMap (generic_lambda_widgets region ⟨8, 6⟩) := by
  unfold genAnnotated
  induction fns with
  | nil => rfl
  | cons f fns ih =>
    rw [List.flatMap_cons, List.flatMap_cons, List.map_append, ih, List.map_map]
    rw [show Prod.snd ∘ (fun w => (f.etl_branch, w)) = (id : JVal → JVal) from rfl,
        List.map_id]

-- C2 -------------------------------------------------------------------------

/-- C2: the autogenerated section of `create_lambda_widgets` (everything after
the six fixed widgets) is exactly the branch-annotated generated widgets laid
out in bucket order: the annotated sequence is sorted by the fixed category
priority (error_handling, data_ingest, dv, sv, nwis_web, data_purging,
environment_management, undefined last at priority 7), so any two widgets of
different categories appear with the higher-priority category first, for every
input order; and for every branch the subsequence of that branch equals its
insertion-order subsequence (within-bucket stability). -/
theorem c2_category_partition_order (dashboard_lambdas : List (Str × LookupEntry))
    (custom_lambda_widgets : List (Str × List Str)) (region deploy_stage : Str)
    (fns : List IowFunction) (pos : Positioning) :
    ((create_lambda_widgets dashboard_lambdas custom_lambda_widgets region
        deploy_stage fns pos).1).drop 6
      = (orderedAnnotated region fns).map Prod.snd
    ∧ (orderedAnnotated region fns).Pairwise
        (fun a b => branchPriority a.1 ≤ branchPriority b.1)
    ∧ ∀ br : Str, (orderedAnnotated region fns).filter (fun x => decide (x.1 = br))
        = (genAnnotated region fns).filter (fun x => decide (x.1 = br)) := by
  refine ⟨?_, pairwise_orderedAnnotated region fns, orderedAnnotated_stable region fns⟩
  rw [create_lambda_widgets_decomp]
  rw [show (6 : Nat) = (custom_prefix_widgets dashboard_lambdas custom_lambda_widgets
      region deploy_stage).length from rfl]
  exact List.drop_left _ _

-- C7 -------------------------------------------------------------------------

/-- C7: each resource passing the tag filter produces exactly one widget set
and filtered-out resources produce none: `get_iow_functions` keeps exactly the
functions accepted by the lambda filter (one record each); the autogenerated
section of `create_lambda_widgets` is a permutation of exactly three generic
widgets per kept function; `create_lambda_memory_usage_widgets` emits its
title plus exactly one memory widget per kept function; and
`create_state_machine_widgets` emits its title plus exactly one widget per
state machine accepted by the state-machine filter. -/
theorem c7_one_widget_set_per_filtered_resource
    (dashboard_lambdas : List (Str × LookupEntry))
    (custom_lambda_widgets : List (Str × List Str))
    (smTbl : List (Str × Str)) (region deploy_stage : Str)
    (lambdaTags : Str → Option (List (Str × Str)))
    (sfnTags : Str → Option (List SfnTag))
    (functions : List LambdaFn) (machines : List StateMachine)
    (pos pos2 pos3 : Positioning) :
    get_iow_functions dashboard_lambdas deploy_stage lambdaTags functions
      = (functions.filter (is_iow_lambda_filter deploy_stage lambdaTags)).map
          (iow_function_record dashboard_lambdas deploy_stage)
    ∧ List.Perm (((create_lambda_widgets dashboard_lambdas custom_lambda_widgets
          region deploy_stage
          (get_iow_functions dashboard_lambdas deploy_stage lambdaTags functions)
          pos).1).drop 6)
        ((get_iow_functions dashboard_lambdas deploy_stage lambdaTags
            functions).flatMap (generic_lambda_widgets region ⟨8, 6⟩))
    ∧ (∀ f : IowFunction, (generic_lambda_widgets region ⟨8, 6⟩ f).length = 3)
    ∧ (create_lambda_memory_usage_widgets region
          (get_iow_functions dashboard_lambdas deploy_stage lambdaTags functions)
          pos2).1
        = memory_usage_lambdas_title_widget
          :: (get_iow_functions dashboard_lambdas deploy_stage lambdaTags
              functions).map
            (fun f => memory_usage_widget region ⟨24, 6⟩ f.function_name f.title)
    ∧ (create_state_machine_widgets smTbl region deploy_stage sfnTags machines
          pos3).1
        = state_machine_section_title_widget
          :: (machines.filter (fun m =>
              is_iow_state_machine_filter deploy_stage sfnTags
                m.stateMachineArn)).map
            (fun m => state_machine_widget region ⟨12, 6⟩ m.stateMachineArn
              (resolve_sm_title smTbl deploy_stage m.name)) := by
  refine ⟨get_iow_functions_eq dashboard_lambdas deploy_stage lambdaTags functions,
    ?_, fun f => rfl,
    create_memory_decomp region _ pos2,
    create_sm_decomp smTbl region deploy_stage sfnTags machines pos3⟩
  have hdrop : ((create_lambda_widgets dashboard_lambdas custom_lambda_widgets
      region deploy_stage
      (get_iow_functions dashboard_lambdas deploy_stage lambdaTags functions)
      pos).1).drop 6
      = (orderedAnnotated region
          (get_iow_functions dashboard_lambdas deploy_stage lambdaTags
            functions)).map Prod.snd := by
    rw [create_lambda_widgets_decomp]
    rw [show (6 : Nat) = (custom_prefix_widgets dashboard_lambdas
        custom_lambda_widgets region deploy_stage).length from rfl]
    exact List.drop_left _ _
  rw [hdrop, ← genAnnotated_map_snd]
  exact List.Perm.map Prod.snd (orderedAnnotated_perm region _)

-- C9 -------------------------------------------------------------------------

/-- C9: the widget builders are deterministic despite the shared mutable
positioning structure: the widget list `create_lambda_widgets` (and
`create_lambda_memory_usage_widgets`) returns does not depend on the incoming
positioning state — every read of the structure is preceded by a write in the
same call — so two calls with identical region, deploy-stage and resource-list
inputs return structurally equal widget lists. -/
theorem c9_builders_deterministic (dashboard_lambdas : List (Str × LookupEntry))
    (custom_lambda_widgets : List (Str × List Str)) (region deploy_stage : Str)
    (fns : List IowFunction) (pos pos' : Positioning) :
    (create_lambda_widgets dashboard_lambdas custom_lambda_widgets region
        deploy_stage fns pos).1
      = (create_lambda_widgets dashboard_lambdas custom_lambda_widgets region
          deploy_stage fns pos').1
    ∧ (create_lambda_memory_usage_widgets region fns pos).1
      = (create_lambda_memory_usage_widgets region fns pos').1 := by
  constructor
  · exact (create_lambda_widgets_decomp dashboard_lambdas custom_lambda_widgets
      region deploy_stage fns pos).trans
      (create_lambda_widgets_decomp dashboard_lambdas custom_lambda_widgets
        region deploy_stage fns pos').symm
  · exact (create_memory_decomp region fns pos).trans
      (create_memory_decomp region fns pos').symm

-- C8 -------------------------------------------------------------------------

/-- Modelled from the spec: the `rds.py` module is not among the available
sources (only its unit tests in `tests/test_rds.py` are).  Reconstructed from
spec §8 and the literal test fixtures: `nwcapture` is the cluster-style
database keyed by `DBClusterIdentifier`, `observations` the instance-style one
keyed by `DBInstanceIdentifier`; the database identifier is the name followed
by the lower-cased deploy tier, the title the capitalized name followed by
` DB Status`; both widgets are metric widgets of height 6 and width 12 with
CPUUtilization and DatabaseConnections metrics, timeSeries view, period 300
and stat Average. -/
def generate_db_status_widget (region deploy_stage db_name : Str) : JVal :=
  jo [(lit "type", js (lit "metric")),
      (lit "height", jn 6),
      (lit "width", jn 12),
      (lit "properties", jo [
        (lit "metrics", ja [
          ja [js (lit "AWS/RDS"), js (lit "CPUUtilization"),
              js (if db_name = lit "nwcapture" then lit "DBClusterIdentifier"
                  else lit "DBInstanceIdentifier"),
              js (db_name ++ '-' :: pyLower deploy_stage)],
          ja [js (lit "."), js (lit "DatabaseConnections"), js (lit "."), js (lit "."),
              jo [(lit "yAxis", js (lit "right"))]]]),
        (lit "view", js (lit "timeSeries")),
        (lit "stacked", jb false),
        (lit "region", js region),
        (lit "title", js ((match db_name with
          | [] => []
          | c :: cs => Char.toUpper c :: cs) ++ lit " DB Status")),
        (lit "period", jn 300),
        (lit "stat", js (lit "Average"))])]

/-- Modelled from the spec: `create_rds_widgets` of the missing `rds.py`,
reconstructed from the `test_create_rds_widgets` fixture list: the nwcapture
status widget followed by the observations status widget. -/
def create_rds_widgets (region deploy_stage : Str) : List JVal :=
  [generate_db_status_widget region deploy_stage (lit "nwcapture"),
   generate_db_status_widget region deploy_stage (lit "observations")]

/-- The expected nwcapture widget of `tests/test_rds.py` (region a parameter;
the test pins it to `us-south-10`). -/
def nwcapture_db_status_fixture (region : Str) : JVal :=
  jo [(lit "type", js (lit "metric")),
      (lit "height", jn 6),
      (lit "width", jn 12),
      (lit "properties", jo [
        (lit "metrics", ja [
          ja [js (lit "AWS/RDS"), js (lit "CPUUtilization"),
              js (lit "DBClusterIdentifier"), js (lit "nwcapture-dev")],
          ja [js (lit "."), js (lit "DatabaseConnections"), js (lit "."), js (lit "."),
              jo [(lit "yAxis", js (lit "right"))]]]),
        (lit "view", js (lit "timeSeries")),
        (lit "stacked", jb false),
        (lit "region", js region),
        (lit "title", js (lit "Nwcapture DB Status")),
        (lit "period", jn 300),
        (lit "stat", js (lit "Average"))])]

/-- The expected observations widget of `tests/test_rds.py`. -/
def observations_db_status_fixture (region : Str) : JVal :=
  jo [(lit "type", js (lit "metric")),
      (lit "height", jn 6),
      (lit "width", jn 12),
      (lit "properties", jo [
        (lit "metrics", ja [
          ja [js (lit "AWS/RDS"), js (lit "CPUUtilization"),
              js (lit "DBInstanceIdentifier"), js (lit "observations-dev")],
          ja [js (lit "."), js (lit "DatabaseConnections"), js (lit "."), js (lit "."),
              jo [(lit "yAxis", js (lit "right"))]]]),
        (lit "view", js (lit "timeSeries")),
        (lit "stacked", jb false),
        (lit "region", js region),
        (lit "title", js (lit "Observations DB Status")),
        (lit "period", jn 300),
        (lit "stat", js (lit "Average"))])]

/-- C8: at deploy tier DEV the status-widget generator produces for
`nwcapture` a metric widget whose first metric row uses dimension
`DBClusterIdentifier` with value `nwcapture-dev`, and for `observations` one
using `DBInstanceIdentifier` with value `observations-dev`, the two widgets
otherwise structurally identical as pinned by the literal test fixtures
(type metric, height 6, width 12, CPUUtilization plus DatabaseConnections,
timeSeries view, period 300, stat Average); `create_rds_widgets` returns
exactly the two of them. -/
theorem c8_rds_status_widgets (region : Str) :
    generate_db_status_widget region (lit "DEV") (lit "nwcapture")
        = nwcapture_db_status_fixture region
    ∧ generate_db_status_widget region (lit "DEV") (lit "observations")
        = observations_db_status_fixture region
    ∧ create_rds_widgets region (lit "DEV")
        = [nwcapture_db_status_fixture region,
           observations_db_status_fixture region] := by
  refine ⟨rfl, rfl, rfl⟩

-- C10 ------------------------------------------------------------------------

/-- The `__main__` tag scan of `dashboard.py` (lines 29–40): for each listed
function whose metadata carries `Tags` with the `wma:organization` key, the
script iterates over the tag VALUE — a string, hence over its one-character
substrings — comparing each element against `IOW`; this returns the names of
the functions for which that comparison ever succeeds (the resources the
script would identify as IOW assets). -/
def dashboard_iow_scan (get_function_tags : Str → Option (List (Str × Str)))
    (functions : List LambdaFn) : List Str :=
  functions.foldl (fun acc function =>
    match get_function_tags function.FunctionName with
    | none => acc
    | some tags =>
      match assocGet tags (lit "wma:organization") with
      | none => acc
      | some wma_value =>
        if wma_value.any (fun wma_tag => decide (lit "IOW" = [wma_tag])) then
          acc ++ [function.FunctionName]
        else acc) []

/-- C10: the inner comparison of the dashboard.py tag check is unreachable for
string tag values — each iterated element is a single character, never equal
to the three-character string `IOW` — so the scan never identifies any
function as an IOW asset, for every tag environment and function list. -/
theorem c10_dashboard_tag_check_unreachable
    (get_function_tags : Str → Option (List (Str × Str)))
    (functions : List LambdaFn) :
    dashboard_iow_scan get_function_tags functions = []
    ∧ ∀ wma_value : Str,
        wma_value.any (fun wma_tag => decide (lit "IOW" = [wma_tag])) = false := by
  have hchar : ∀ wma_value : Str,
      wma_value.any (fun wma_tag => decide (lit "IOW" = [wma_tag])) = false := by
    intro v
    apply List.any_eq_false.mpr
    intro c hc hdec
    have h : lit "IOW" = [c] := of_decide_eq_true hdec
    have hl : (lit "IOW").length = ([c] : Str).length := congrArg List.length h
    rw [show (lit "IOW").length = 3 from rfl,
        show ([c] : Str).length = 1 from rfl] at hl
    exact absurd hl (by decide)
  refine ⟨?_, hchar⟩
  unfold dashboard_iow_scan
  have key : ∀ (fns : List LambdaFn) (acc : List Str),
      fns.foldl (fun acc function =>
        match get_function_tags function.FunctionName with
        | none => acc
        | some tags =>
          match assocGet tags (lit "wma:organization") with
          | none => acc
          | some wma_value =>
            if wma_value.any (fun wma_tag => decide (lit "IOW" = [wma_tag])) then
              acc ++ [function.FunctionName]
            else acc) acc = acc := by
    intro fns
    induction fns with
    | nil => intro acc; rfl
    | cons f fns ih =>
      intro acc
      rw [List.foldl_cons]
      have hstep : (match get_function_tags f.FunctionName with
          | none => acc
          | some tags =>
            match assocGet tags (lit "wma:organization") with
            | none => acc
            | some wma_value =>
              if wma_value.any (fun wma_tag => decide (lit "IOW" = [wma_tag])) then
                acc ++ [f.FunctionName]
              else acc) = acc := by
        cases get_function_tags f.FunctionName with
        | none => rfl
        | some tags =>
          show (match assocGet tags (lit "wma:organization") with
            | none => acc
            | some wma_value =>
              if wma_value.any (fun wma_tag => decide (lit "IOW" = [wma_tag])) then
                acc ++ [f.FunctionName]
              else acc) = acc
          cases assocGet tags (lit "wma:organization") with
          | none => rfl
          | some v => simp [hchar v]
      rw [hstep, ih]
  exact key functions []
